import Mathlib

/-!
# MeshObject (src/engine/meshobject.cpp)

A shallow embedding of the boundary object of the fluid engine: its keyframe
store, the temporal interpolation queries, the occupancy query, the scalar
setters, the rigid body velocity estimate and the sequential parts of the level
set assembly (pruning of the velocity field, island culling, island expansion,
per-island sub-grids).

Floating point values (`float`, `double`) are embedded as rationals, so every
statement below is over exact arithmetic. C++ `int` is embedded as `Int`,
`size_t` as `Nat`. A read `v[i]` of a `std::vector` whose index is not guarded
by the surrounding code is embedded as `v[i]?`, and the function then returns
an `Option`: `none` stands for an out-of-range read. The square root and the arc
cosine are parameters of the definitions that use them; services of other
classes (mesh splitting, distance computation, level set union) are parameters
as well.
-/

namespace FlipFluids

/-! ## Data model -/

/-- The type `vmath::vec3`: three coordinates. -/
structure Vec3 where
  x : ℚ
  y : ℚ
  z : ℚ
deriving DecidableEq

namespace Vec3

/-- The default constructor `vmath::vec3()`: the zero vector. -/
instance : Zero Vec3 := ⟨⟨0, 0, 0⟩⟩

/-- Componentwise `operator+`. -/
instance : Add Vec3 := ⟨fun a b => ⟨a.x + b.x, a.y + b.y, a.z + b.z⟩⟩

/-- Componentwise `operator-`. -/
instance : Sub Vec3 := ⟨fun a b => ⟨a.x - b.x, a.y - b.y, a.z - b.z⟩⟩

/-- Scaling `s * v` (and `v *= s`). -/
instance : SMul ℚ Vec3 := ⟨fun s a => ⟨s * a.x, s * a.y, s * a.z⟩⟩

end Vec3

/-- A triangle of a `TriangleMesh`: three vertex indices. -/
structure Triangle where
  tri0 : Int
  tri1 : Int
  tri2 : Int
deriving DecidableEq

/-- The type `TriangleMesh`: vertex positions and triangle index triples. -/
structure TriangleMesh where
  vertices : List Vec3
  triangles : List Triangle
deriving DecidableEq

/-- The type `GridIndex`: an integer triple. -/
structure GridIndex where
  i : Int
  j : Int
  k : Int
deriving DecidableEq

/-- The member variables of `MeshObject` that meshobject.cpp reads and writes. -/
structure MeshObject where
  _isize : Int
  _jsize : Int
  _ksize : Int
  _dx : ℚ
  _meshPrevious : TriangleMesh
  _meshCurrent : TriangleMesh
  _meshNext : TriangleMesh
  _vertexTranslationsCurrent : List Vec3
  _vertexTranslationsNext : List Vec3
  _isAnimated : Bool
  _isChangingTopology : Bool
  _isEnabled : Bool
  _isInversed : Bool
  _isObjectStateChanged : Bool
  _friction : ℚ
  _whitewaterInfluence : ℚ
  _sheetingStrength : ℚ
  _meshExpansion : ℚ
  _isAppendObjectVelocityEnabled : Bool
  _objectVelocityInfluence : ℚ
  _numIslandsForFractureOptimizationTrigger : Int
  _finishedWorkQueueSize : Int

/-! ## Keyframe store -/

/-- The method `MeshObject::updateMeshStatic`. `std::vector<vmath::vec3>(n)` is a
vector of `n` default (zero) vectors. -/
def updateMeshStatic (o : MeshObject) (meshCurrent : TriangleMesh) : MeshObject :=
  { o with
    _meshPrevious := meshCurrent
    _meshCurrent := meshCurrent
    _meshNext := meshCurrent
    _vertexTranslationsCurrent := List.replicate meshCurrent.vertices.length 0
    _vertexTranslationsNext := List.replicate meshCurrent.vertices.length 0
    _isAnimated := false
    _isChangingTopology := false }

/-- The method `MeshObject::updateMeshAnimated`. Both loops run under a guard
that makes the two vertex counts equal, so every read `vertices[i]` with
`i < meshCurrent.vertices.size()` is in range; the default of `getD` is never
taken. -/
def updateMeshAnimated (o : MeshObject)
    (meshPrevious meshCurrent meshNext : TriangleMesh) : MeshObject :=
  let o := { o with
    _meshPrevious := meshPrevious
    _meshCurrent := meshCurrent
    _meshNext := meshNext
    _isChangingTopology := false }
  let o := { o with
    _vertexTranslationsCurrent := List.replicate meshCurrent.vertices.length 0 }
  let o :=
    if o._meshPrevious.vertices.length = o._meshCurrent.vertices.length then
      { o with
        _vertexTranslationsCurrent :=
          (List.range meshCurrent.vertices.length).foldl
            (fun tr i =>
              tr.set i (o._meshCurrent.vertices.getD i 0 - o._meshPrevious.vertices.getD i 0))
            o._vertexTranslationsCurrent }
    else
      { o with _isChangingTopology := true }
  let o := { o with
    _vertexTranslationsNext := List.replicate meshNext.vertices.length 0 }
  let o :=
    if o._meshNext.vertices.length = o._meshCurrent.vertices.length then
      { o with
        _vertexTranslationsNext :=
          (List.range meshCurrent.vertices.length).foldl
            (fun tr i =>
              tr.set i (o._meshNext.vertices.getD i 0 - o._meshCurrent.vertices.getD i 0))
            o._vertexTranslationsNext }
    else
      { o with _isChangingTopology := true }
  { o with _isAnimated := true }

/-! ## Temporal interpolation -/

/-- The method `MeshObject::getMesh(float)`. The reads `_meshCurrent.vertices[i]`
and `_meshNext.vertices[i]` are unguarded. -/
def getMesh (o : MeshObject) (frameInterpolation : ℚ) : Option TriangleMesh :=
  if o._isChangingTopology then
    some o._meshCurrent
  else
    let frameInterpolation := max 0 frameInterpolation
    let frameInterpolation := min 1 frameInterpolation
    let outmesh := o._meshCurrent
    (List.range o._meshCurrent.vertices.length).foldlM
      (fun (outmesh : TriangleMesh) i => do
        let v1 ← o._meshCurrent.vertices[i]?
        let v2 ← o._meshNext.vertices[i]?
        pure { outmesh with
          vertices := outmesh.vertices.set i (v1 + frameInterpolation • (v2 - v1)) })
      outmesh

/-- The method `MeshObject::getVertexTranslations(float)`. -/
def getVertexTranslations (o : MeshObject) (frameInterpolation : ℚ) : Option (List Vec3) :=
  if o._isChangingTopology then
    some o._vertexTranslationsCurrent
  else
    let frameInterpolation := max 0 frameInterpolation
    let frameInterpolation := min 1 frameInterpolation
    let transout : List Vec3 := List.replicate o._vertexTranslationsCurrent.length 0
    (List.range o._vertexTranslationsCurrent.length).foldlM
      (fun (transout : List Vec3) i => do
        let p1 ← o._vertexTranslationsCurrent[i]?
        let p2 ← o._vertexTranslationsNext[i]?
        pure (transout.set i (p1 + frameInterpolation • (p2 - p1))))
      transout

/-- The method `MeshObject::getVertexVelocities(double, float)`. -/
def getVertexVelocities (o : MeshObject) (dt : ℚ) (frameInterpolation : ℚ) :
    Option (List Vec3) := do
  let velocities ← getVertexTranslations o frameInterpolation
  let eps : ℚ := 1 / 10000000000
  if dt < eps then
    let velocities : List Vec3 := List.replicate velocities.length 0
    pure velocities
  else
    let invdt : ℚ := 1 / dt
    pure ((List.range velocities.length).foldl
      (fun (velocities : List Vec3) i =>
        velocities.set i (invdt • velocities.getD i 0))
      velocities)


/-! ## Occupancy query -/

/-- Modelled from the spec: `Array3d<T>`, the grid container (its source is not
part of meshobject.cpp): a `width x height x depth` box of values, read with
`operator()` and written with `set`. -/
structure Array3d (α : Type) where
  width : Int
  height : Int
  depth : Int
  get : Int → Int → Int → α

namespace Array3d

/-- Modelled from the spec: the constructor `Array3d(i, j, k, fillValue)`. -/
def new {α : Type} (i j k : Int) (fillValue : α) : Array3d α :=
  { width := i, height := j, depth := k, get := fun _ _ _ => fillValue }

/-- Modelled from the spec: `Array3d::isIndexInRange(GridIndex)`, the bounds check
of an index against the grid extents. -/
def isIndexInRange {α : Type} (a : Array3d α) (g : GridIndex) : Bool :=
  decide (0 ≤ g.i ∧ 0 ≤ g.j ∧ 0 ≤ g.k ∧ g.i < a.width ∧ g.j < a.height ∧ g.k < a.depth)

/-- Modelled from the spec: `Array3d::set(GridIndex, value)`. -/
def set {α : Type} (a : Array3d α) (g : GridIndex) (value : α) : Array3d α :=
  { a with get := fun i j k => if i = g.i ∧ j = g.j ∧ k = g.k then value else a.get i j k }

end Array3d

/-- Modelled from the spec: `Grid3d::getVertexGridIndexNeighbours`, the
index-neighbour lookup for the 8 cells touching the node `(i, j, k)`. -/
def Grid3d.getVertexGridIndexNeighbours (i j k : Int) : List GridIndex :=
  [⟨i, j, k⟩, ⟨i - 1, j, k⟩, ⟨i, j, k - 1⟩, ⟨i - 1, j, k - 1⟩,
   ⟨i, j - 1, k⟩, ⟨i - 1, j - 1, k⟩, ⟨i, j - 1, k - 1⟩, ⟨i - 1, j - 1, k - 1⟩]

/-- Modelled from the spec: `MeshUtils::getGridNodesInsideTriangleMesh`, which marks
every grid node as inside or outside the mesh. The point-in-mesh test itself is
the parameter `isNodeInsideMesh mesh dx i j k`. -/
def MeshUtils.getGridNodesInsideTriangleMesh
    (isNodeInsideMesh : TriangleMesh → ℚ → Int → Int → Int → Bool)
    (m : TriangleMesh) (dx : ℚ) (nodes : Array3d Bool) : Array3d Bool :=
  { nodes with get := fun i j k => isNodeInsideMesh m dx i j k }

/-- The index values of `for (int i = 0; i < n; i++)`. -/
def intRange (n : Int) : List Int :=
  (List.range n.toNat).map Int.ofNat

/-- The method `MeshObject::_getInversedCells`. -/
def _getInversedCells (isNodeInsideMesh : TriangleMesh → ℚ → Int → Int → Int → Bool)
    (o : MeshObject) (frameInterpolation : ℚ) (cells : List GridIndex) :
    Option (List GridIndex) := do
  let m ← getMesh o frameInterpolation
  let nodes : Array3d Bool := Array3d.new (o._isize + 1) (o._jsize + 1) (o._ksize + 1) false
  let nodes := MeshUtils.getGridNodesInsideTriangleMesh isNodeInsideMesh m o._dx nodes
  let cellGrid : Array3d Bool := Array3d.new o._isize o._jsize o._ksize false
  let cellGrid :=
    (intRange nodes.depth).foldl (fun cellGrid k =>
      (intRange nodes.height).foldl (fun cellGrid j =>
        (intRange nodes.width).foldl (fun cellGrid i =>
          if nodes.get i j k then
            cellGrid
          else
            let nodeCells := Grid3d.getVertexGridIndexNeighbours i j k
            nodeCells.foldl (fun cellGrid (n : GridIndex) =>
              if cellGrid.isIndexInRange n then cellGrid.set n true else cellGrid) cellGrid)
          cellGrid) cellGrid) cellGrid
  let cells :=
    (intRange o._ksize).foldl (fun cells k =>
      (intRange o._jsize).foldl (fun cells j =>
        (intRange o._isize).foldl (fun cells i =>
          if cellGrid.get i j k then cells ++ [GridIndex.mk i j k] else cells)
          cells) cells) cells
  pure cells

/-- The method `MeshObject::getCells(float, std::vector<GridIndex>&)`. The call of
`_getInversedCells` is not followed by a `return`: the code after the `if` runs
for an inverted object too. -/
def getCells (isNodeInsideMesh : TriangleMesh → ℚ → Int → Int → Int → Bool)
    (o : MeshObject) (frameInterpolation : ℚ) (cells : List GridIndex) :
    Option (List GridIndex) := do
  let cells ←
    if o._isInversed then _getInversedCells isNodeInsideMesh o frameInterpolation cells
    else pure cells
  let m ← getMesh o frameInterpolation
  let nodes : Array3d Bool := Array3d.new (o._isize + 1) (o._jsize + 1) (o._ksize + 1) false
  let nodes := MeshUtils.getGridNodesInsideTriangleMesh isNodeInsideMesh m o._dx nodes
  let cellGrid : Array3d Bool := Array3d.new o._isize o._jsize o._ksize false
  let cellGrid :=
    (intRange nodes.depth).foldl (fun cellGrid k =>
      (intRange nodes.height).foldl (fun cellGrid j =>
        (intRange nodes.width).foldl (fun cellGrid i =>
          if !nodes.get i j k then
            cellGrid
          else
            let nodeCells := Grid3d.getVertexGridIndexNeighbours i j k
            nodeCells.foldl (fun cellGrid (n : GridIndex) =>
              if cellGrid.isIndexInRange n then cellGrid.set n true else cellGrid) cellGrid)
          cellGrid) cellGrid) cellGrid
  let cells :=
    (intRange o._ksize).foldl (fun cells k =>
      (intRange o._jsize).foldl (fun cells j =>
        (intRange o._isize).foldl (fun cells i =>
          if cellGrid.get i j k then cells ++ [GridIndex.mk i j k] else cells)
          cells) cells) cells
  pure cells

/-- The cells of an `isize x jsize x ksize` grid in the order of the scan
`for k { for j { for i { ... } } }`. -/
def cellScan (isize jsize ksize : Int) : List GridIndex :=
  (intRange ksize).flatMap (fun k =>
    (intRange jsize).flatMap (fun j =>
      (intRange isize).map (fun i => GridIndex.mk i j k)))

/-- Whether one of the 8 corner nodes of the cell `c` satisfies `node`. -/
def anyCornerNode (node : Int → Int → Int → Bool) (c : GridIndex) : Bool :=
  node c.i c.j c.k || node (c.i + 1) c.j c.k || node c.i (c.j + 1) c.k ||
  node (c.i + 1) (c.j + 1) c.k || node c.i c.j (c.k + 1) || node (c.i + 1) c.j (c.k + 1) ||
  node c.i (c.j + 1) (c.k + 1) || node (c.i + 1) (c.j + 1) (c.k + 1)

/-- The grid extents are those of an `w x h x d` grid. -/
def Array3d.HasDims {α : Type} (w h d : Int) (a : Array3d α) : Prop :=
  a.width = w ∧ a.height = h ∧ a.depth = d


/-! ## Level set assembly: island culling and island sub-grids -/

/-- Modelled from the spec: `AABB`, an axis-aligned bounding box given by its
minimum corner `position` and its extents `width`, `height`, `depth` (along x, y
and z). The class is not defined in meshobject.cpp. -/
structure AABB where
  position : Vec3
  width : ℚ
  height : ℚ
  depth : ℚ
deriving DecidableEq

namespace AABB

/-- Modelled from the spec: the default constructor `AABB()`, the empty box at
the origin. -/
def empty : AABB := { position := 0, width := 0, height := 0, depth := 0 }

/-- Modelled from the spec: `AABB(std::vector<vmath::vec3>&)`, the axis-aligned
bounding box over a vertex set (the empty box for no vertices). -/
def ofPoints (points : List Vec3) : AABB :=
  match points with
  | [] => empty
  | p0 :: _ =>
    let minx := points.foldl (fun acc p => min p.x acc) p0.x
    let miny := points.foldl (fun acc p => min p.y acc) p0.y
    let minz := points.foldl (fun acc p => min p.z acc) p0.z
    let maxx := points.foldl (fun acc p => max p.x acc) p0.x
    let maxy := points.foldl (fun acc p => max p.y acc) p0.y
    let maxz := points.foldl (fun acc p => max p.z acc) p0.z
    { position := ⟨minx, miny, minz⟩,
      width := maxx - minx, height := maxy - miny, depth := maxz - minz }

/-- Modelled from the spec: `AABB::getMinPoint`. -/
def getMinPoint (b : AABB) : Vec3 := b.position

/-- Modelled from the spec: `AABB::getMaxPoint`. -/
def getMaxPoint (b : AABB) : Vec3 := b.position + ⟨b.width, b.height, b.depth⟩

/-- Modelled from the spec: `AABB::isPointInside`, containment of a point in the
(closed) box. -/
def isPointInside (b : AABB) (p : Vec3) : Bool :=
  decide (b.getMinPoint.x ≤ p.x ∧ b.getMinPoint.y ≤ p.y ∧ b.getMinPoint.z ≤ p.z ∧
    p.x ≤ b.getMaxPoint.x ∧ p.y ≤ b.getMaxPoint.y ∧ p.z ≤ b.getMaxPoint.z)

/-- Modelled from the spec: `AABB::getIntersection`, the overlap box of two boxes:
the empty box when the boxes are separated along an axis, else the box from
the larger minimum to the smaller maximum on every axis. -/
def getIntersection (b1 b2 : AABB) : AABB :=
  let minp1 := b1.getMinPoint
  let minp2 := b2.getMinPoint
  let maxp1 := b1.getMaxPoint
  let maxp2 := b2.getMaxPoint
  if minp1.x > maxp2.x ∨ minp1.y > maxp2.y ∨ minp1.z > maxp2.z ∨
      maxp1.x < minp2.x ∨ maxp1.y < minp2.y ∨ maxp1.z < minp2.z then
    empty
  else
    let interminx := max minp1.x minp2.x
    let interminy := max minp1.y minp2.y
    let interminz := max minp1.z minp2.z
    let intermaxx := min maxp1.x maxp2.x
    let intermaxy := min maxp1.y maxp2.y
    let intermaxz := min maxp1.z maxp2.z
    { position := ⟨interminx, interminy, interminz⟩,
      width := intermaxx - interminx, height := intermaxy - interminy,
      depth := intermaxz - interminz }

end AABB

/-- Modelled from the spec: `Grid3d::positionToGridIndex`, the
world-position-to-grid-index conversion at cell size `dx`. -/
def Grid3d.positionToGridIndex (p : Vec3) (dx : ℚ) : GridIndex :=
  let invdx : ℚ := 1 / dx
  ⟨⌊p.x * invdx⌋, ⌊p.y * invdx⌋, ⌊p.z * invdx⌋⟩

/-- The part of `MeshLevelSet` that meshobject.cpp reads and writes: grid
dimensions, cell size, grid offset and the multithreading toggle. -/
structure MeshLevelSet where
  isize : Int
  jsize : Int
  ksize : Int
  dx : ℚ
  gridOffset : GridIndex
  isMultiThreadingEnabled : Bool
deriving DecidableEq

/-- The constructor `MeshLevelSet(isize, jsize, ksize, dx, meshObject)`. -/
def MeshLevelSet.new (isize jsize ksize : Int) (dx : ℚ) : MeshLevelSet :=
  { isize := isize, jsize := jsize, ksize := ksize, dx := dx,
    gridOffset := ⟨0, 0, 0⟩, isMultiThreadingEnabled := true }

/-- The method `MeshLevelSet::setGridOffset`. -/
def MeshLevelSet.setGridOffset (l : MeshLevelSet) (g : GridIndex) : MeshLevelSet :=
  { l with gridOffset := g }

/-- The method `MeshObject::_getMeshIslands`. `splitIntoMeshIslands` stands for
`MeshUtils::splitIntoMeshIslands`; the output vectors `islands` and
`islandVertexVelocities` are passed in and returned. -/
def _getMeshIslands
    (splitIntoMeshIslands : TriangleMesh → List Vec3 → List TriangleMesh × List (List Vec3))
    (m : TriangleMesh) (vertexVelocities : List Vec3) (levelset : MeshLevelSet)
    (islands : List TriangleMesh) (islandVertexVelocities : List (List Vec3)) :
    Option (List TriangleMesh × List (List Vec3)) :=
  let tempIslands := (splitIntoMeshIslands m vertexVelocities).1
  let tempIslandVertexVelocities := (splitIntoMeshIslands m vertexVelocities).2
  let isize := levelset.isize
  let jsize := levelset.jsize
  let ksize := levelset.ksize
  let dx := levelset.dx
  let gridAABB : AABB :=
    { position := ⟨0, 0, 0⟩, width := isize * dx, height := jsize * dx, depth := ksize * dx }
  (List.range tempIslands.length).foldlM
    (fun (out : List TriangleMesh × List (List Vec3)) i => do
      let island ← tempIslands[i]?
      let meshAABB := AABB.ofPoints island.vertices
      let minp := meshAABB.getMinPoint
      let maxp := meshAABB.getMaxPoint
      if gridAABB.isPointInside minp && gridAABB.isPointInside maxp then
        let velocities ← tempIslandVertexVelocities[i]?
        pure (out.1 ++ [island], out.2 ++ [velocities])
      else
        let inter := gridAABB.getIntersection meshAABB
        if inter.width > 0 ∨ inter.height > 0 ∨ inter.depth > 0 then
          let velocities ← tempIslandVertexVelocities[i]?
          pure (out.1 ++ [island], out.2 ++ [velocities])
        else
          pure out)
    (islands, islandVertexVelocities)

/-- The method `MeshObject::_getMeshIslandLevelSet`. `fastCalculateSignedDistanceField`
stands for the method of that name of `MeshLevelSet`. -/
def _getMeshIslandLevelSet
    (fastCalculateSignedDistanceField :
      MeshLevelSet → TriangleMesh → List Vec3 → Int → MeshLevelSet)
    (m : TriangleMesh) (velocities : List Vec3) (domainLevelSet : MeshLevelSet)
    (exactBand : Int) : MeshLevelSet :=
  let isize := domainLevelSet.isize
  let jsize := domainLevelSet.jsize
  let ksize := domainLevelSet.ksize
  let dx := domainLevelSet.dx
  let islandAABB := AABB.ofPoints m.vertices
  let gmin := Grid3d.positionToGridIndex islandAABB.getMinPoint dx
  let gmax := Grid3d.positionToGridIndex islandAABB.getMaxPoint dx
  let gmin := { gmin with i := max (gmin.i - exactBand) 0 }
  let gmin := { gmin with j := max (gmin.j - exactBand) 0 }
  let gmin := { gmin with k := max (gmin.k - exactBand) 0 }
  let gmax := { gmax with i := min (gmax.i + exactBand + 1) (isize - 1) }
  let gmax := { gmax with j := min (gmax.j + exactBand + 1) (jsize - 1) }
  let gmax := { gmax with k := min (gmax.k + exactBand + 1) (ksize - 1) }
  let gwidth := gmax.i - gmin.i
  let gheight := gmax.j - gmin.j
  let gdepth := gmax.k - gmin.k
  let islandLevelSet := MeshLevelSet.new gwidth gheight gdepth dx
  let islandLevelSet := islandLevelSet.setGridOffset gmin
  fastCalculateSignedDistanceField islandLevelSet m velocities exactBand

/-- The domain box `[0, isize*dx] x [0, jsize*dx] x [0, ksize*dx]` of a level set
grid (the `gridAABB` of `_getMeshIslands`). -/
def domainBox (levelset : MeshLevelSet) : AABB :=
  { position := ⟨0, 0, 0⟩, width := levelset.isize * levelset.dx,
    height := levelset.jsize * levelset.dx, depth := levelset.ksize * levelset.dx }

/-- The cull criterion in the words of the specification: both the min and the
max point of the island's bounding box lie inside the domain box
`[0, isize*dx] x [0, jsize*dx] x [0, ksize*dx]`, or the intersection of the bounding
box with the domain box has a positive extent (width, height or depth). -/
def islandIsKept (levelset : MeshLevelSet) (island : TriangleMesh) : Bool :=
  let box := AABB.ofPoints island.vertices
  let minp := box.getMinPoint
  let maxp := box.getMaxPoint
  let inter := (domainBox levelset).getIntersection box
  decide
    (((0 ≤ minp.x ∧ 0 ≤ minp.y ∧ 0 ≤ minp.z ∧
        minp.x ≤ levelset.isize * levelset.dx ∧ minp.y ≤ levelset.jsize * levelset.dx ∧
        minp.z ≤ levelset.ksize * levelset.dx) ∧
      (0 ≤ maxp.x ∧ 0 ≤ maxp.y ∧ 0 ≤ maxp.z ∧
        maxp.x ≤ levelset.isize * levelset.dx ∧ maxp.y ≤ levelset.jsize * levelset.dx ∧
        maxp.z ≤ levelset.ksize * levelset.dx)) ∨
     (0 < inter.width ∨ 0 < inter.height ∨ 0 < inter.depth))

/-- Zero overlap of the island's bounding box with the domain box: the two boxes
are separated along some axis. -/
def islandIsOutside (levelset : MeshLevelSet) (island : TriangleMesh) : Prop :=
  let box := AABB.ofPoints island.vertices
  let minp := box.getMinPoint
  let maxp := box.getMaxPoint
  maxp.x < 0 ∨ maxp.y < 0 ∨ maxp.z < 0 ∨
    levelset.isize * levelset.dx < minp.x ∨ levelset.jsize * levelset.dx < minp.y ∨
    levelset.ksize * levelset.dx < minp.z

/-- The method `MeshObject::inverse`. -/
def inverse (o : MeshObject) : MeshObject :=
  { o with _isInversed := !o._isInversed }

/-! ## Sample data for the examples -/

/-- An object on an `i x j x k` grid of cell size `dx` with empty keyframes, not
inverted, not animated. -/
def sampleObject (i j k : Int) (dx : ℚ) : MeshObject :=
  { _isize := i, _jsize := j, _ksize := k, _dx := dx,
    _meshPrevious := ⟨[], []⟩, _meshCurrent := ⟨[], []⟩, _meshNext := ⟨[], []⟩,
    _vertexTranslationsCurrent := [], _vertexTranslationsNext := [],
    _isAnimated := false, _isChangingTopology := false, _isEnabled := true,
    _isInversed := false, _isObjectStateChanged := false, _friction := 0,
    _whitewaterInfluence := 1, _sheetingStrength := 1, _meshExpansion := 0,
    _isAppendObjectVelocityEnabled := false, _objectVelocityInfluence := 1,
    _numIslandsForFractureOptimizationTrigger := 25, _finishedWorkQueueSize := 25 }

/-- One triangle with a corner at `p`. -/
def sampleTriangle (p : Vec3) : TriangleMesh :=
  { vertices := [p, p + ⟨1, 0, 0⟩, p + ⟨0, 1, 0⟩], triangles := [⟨0, 1, 2⟩] }

/-- A mesh with a single vertex and no triangle. -/
def samplePoint : TriangleMesh :=
  { vertices := [⟨0, 0, 0⟩], triangles := [] }

/-- A tetrahedron around the grid node `(1, 1, 1)` (cell size 1) that contains no
other grid node. -/
def sampleTetrahedron : TriangleMesh :=
  { vertices := [⟨3/4, 3/4, 3/4⟩, ⟨7/4, 3/4, 3/4⟩, ⟨3/4, 7/4, 3/4⟩, ⟨3/4, 3/4, 7/4⟩],
    triangles := [⟨0, 2, 1⟩, ⟨0, 1, 3⟩, ⟨0, 3, 2⟩, ⟨1, 2, 3⟩] }

/-- The outcome of the point-in-mesh test for `sampleTetrahedron` at cell size 1:
only the node `(1, 1, 1)` is inside. -/
def sampleNodeTest : TriangleMesh → ℚ → Int → Int → Int → Bool :=
  fun _ _ i j k => decide (i = 1 ∧ j = 1 ∧ k = 1)

/-- A `10 x 10 x 10` domain level set grid of cell size 1. -/
def sampleDomain : MeshLevelSet := MeshLevelSet.new 10 10 10 1

/-- A triangle that lies in the face `x = 10` of `sampleDomain`. -/
def boundaryIsland : TriangleMesh :=
  { vertices := [⟨10, 2, 2⟩, ⟨10, 3, 2⟩, ⟨10, 2, 3⟩], triangles := [⟨0, 1, 2⟩] }

/-- A split that returns the mesh as its single island. -/
def sampleSplit : TriangleMesh → List Vec3 → List TriangleMesh × List (List Vec3) :=
  fun m v => ([m], [v])

/-- A signed-distance computation that leaves the level set grid as constructed. -/
def sampleDistanceField : MeshLevelSet → TriangleMesh → List Vec3 → Int → MeshLevelSet :=
  fun l _ _ _ => l

/-- An animated object whose three keyframes are the same triangle moved along x:
topology is unchanged. -/
def sampleAnimated : MeshObject :=
  updateMeshAnimated (sampleObject 10 10 10 1) (sampleTriangle ⟨0, 0, 0⟩)
    (sampleTriangle ⟨1, 0, 0⟩) (sampleTriangle ⟨2, 0, 0⟩)

/-- An animated object whose previous keyframe has one vertex and whose current
and next keyframes have three: topology is changing. -/
def sampleChanging : MeshObject :=
  updateMeshAnimated (sampleObject 10 10 10 1) samplePoint
    (sampleTriangle ⟨1, 0, 0⟩) (sampleTriangle ⟨2, 0, 0⟩)

/-! ## Scalar parameters -/

/-- The method `MeshObject::setFriction`. -/
def setFriction (o : MeshObject) (f : ℚ) : MeshObject :=
  let f := min f 1
  let f := max f 0
  { o with _friction := f }

/-- The method `MeshObject::getFriction`. -/
def getFriction (o : MeshObject) : ℚ := o._friction

/-- The method `MeshObject::setWhitewaterInfluence`. -/
def setWhitewaterInfluence (o : MeshObject) (value : ℚ) : MeshObject :=
  let value := max value 0
  { o with _whitewaterInfluence := value }

/-- The method `MeshObject::getWhitewaterInfluence`. -/
def getWhitewaterInfluence (o : MeshObject) : ℚ := o._whitewaterInfluence

/-- The method `MeshObject::setSheetingStrength`. -/
def setSheetingStrength (o : MeshObject) (value : ℚ) : MeshObject :=
  let value := max value 0
  { o with _sheetingStrength := value }

/-- The method `MeshObject::getSheetingStrength`. -/
def getSheetingStrength (o : MeshObject) : ℚ := o._sheetingStrength

/-! ## Vector helpers and the rigid body velocity estimate

The square root and the arc cosine have no rational values in general: they are
the parameters `sqrt` and `acos` of the definitions that use them. -/

/-- Modelled from the spec: `vmath::dot`, the scalar product (vmath is not part
of meshobject.cpp). -/
def vmath.dot (a b : Vec3) : ℚ := a.x * b.x + a.y * b.y + a.z * b.z

/-- Modelled from the spec: `vmath::cross`, the vector product. -/
def vmath.cross (a b : Vec3) : Vec3 :=
  ⟨a.y * b.z - a.z * b.y, a.z * b.x - a.x * b.z, a.x * b.y - a.y * b.x⟩

/-- Modelled from the spec: `vmath::length`, the Euclidean length, by the square
root `sqrt`. -/
def vmath.length (sqrt : ℚ → ℚ) (v : Vec3) : ℚ := sqrt (v.x * v.x + v.y * v.y + v.z * v.z)

/-- Modelled from the spec: `vmath::vec3::normalize`, the vector divided by its
length. -/
def vmath.normalize (sqrt : ℚ → ℚ) (v : Vec3) : Vec3 :=
  let len := vmath.length sqrt v
  let inv : ℚ := 1 / len
  ⟨v.x * inv, v.y * inv, v.z * inv⟩

/-- The test `std::isinf` on an exact number: no rational is infinite. -/
def isinf (_x : ℚ) : Bool := false

/-- The test `std::isnan` on an exact number: every rational is a number. -/
def isnan (_x : ℚ) : Bool := false

/-- Modelled from the spec: `TriangleMesh::getCentroid`, the mean of the vertex
positions (the zero vector for a mesh without vertices). -/
def TriangleMesh.getCentroid (m : TriangleMesh) : Vec3 :=
  if m.vertices.isEmpty then
    0
  else
    let vsum := m.vertices.foldl (fun (vsum : Vec3) v => vsum + v) 0
    ((1 : ℚ) / (m.vertices.length : ℚ)) • vsum

/-- Modelled from the spec: the type `RigidBodyVelocity`: centroid, linear velocity,
rotation axis and angular speed. -/
structure RigidBodyVelocity where
  centroid : Vec3
  linear : Vec3
  axis : Vec3
  angular : ℚ
deriving DecidableEq

/-- Modelled from the spec: a default-constructed `RigidBodyVelocity` (the local
`RigidBodyVelocity rv;`): zero vectors and zero angular speed. -/
def RigidBodyVelocity.new : RigidBodyVelocity :=
  { centroid := 0, linear := 0, axis := 0, angular := 0 }

/-- The method `MeshObject::getRigidBodyVelocity`. The loop with `break` carries
`(vert1, vert2, referencePointFound)` and does nothing once the flag is set; the
read `m2.vertices[i]` is unguarded. A `float` used as a condition is true when it
is not zero. -/
def getRigidBodyVelocity (sqrt acos : ℚ → ℚ) (o : MeshObject) (framedt : ℚ) :
    Option RigidBodyVelocity :=
  let framedt := max framedt (1 / 1000000)
  let vscale := o._objectVelocityInfluence
  let eps : ℚ := 1 / 100000
  let rv := RigidBodyVelocity.new
  if !o._isAnimated || o._isChangingTopology then
    let m := o._meshCurrent
    let rv := { rv with centroid := m.getCentroid }
    let rv := { rv with axis := ⟨1, 0, 0⟩ }
    some rv
  else do
    let m1 := o._meshCurrent
    let m2 := o._meshNext
    let rv := { rv with centroid := m1.getCentroid }
    let c1 := m1.getCentroid
    let c2 := m2.getCentroid
    let rv := { rv with linear := vscale • ((1 / framedt) • (c2 - c1)) }
    let found ← (List.range m1.vertices.length).foldlM
      (fun (st : Vec3 × Vec3 × Bool) i =>
        if st.2.2 then
          pure st
        else do
          let vert1 ← m1.vertices[i]?
          let vert2 ← m2.vertices[i]?
          if vmath.length sqrt (vert1 - rv.centroid) > eps ∧
              vmath.length sqrt (vert2 - rv.centroid) ≠ 0 then
            pure (vert1, vert2, true)
          else
            pure (vert1, vert2, false))
      ((0 : Vec3), (0 : Vec3), false)
    let vert1 := found.1
    let vert2 := found.2.1
    let referencePointFound := found.2.2
    if !referencePointFound ||
        decide (vmath.length sqrt (vert1 - (vert2 - (c2 - c1))) < eps) then
      pure { rv with axis := ⟨1, 0, 0⟩, angular := 0 }
    else
      let v1 := vert1 - rv.centroid
      let v2 := (vert2 - (c2 - c1)) - rv.centroid
      if vmath.length sqrt v1 < eps ∨ vmath.length sqrt v2 < eps then
        pure { rv with axis := ⟨1, 0, 0⟩, angular := 0 }
      else
        let cross := vmath.cross v1 v2
        if vmath.length sqrt cross < eps then
          pure { rv with axis := ⟨1, 0, 0⟩, angular := 0 }
        else
          let rv := { rv with axis := vmath.normalize sqrt cross }
          let v1 := vmath.normalize sqrt v1
          let v2 := vmath.normalize sqrt v2
          let angle := acos (vmath.dot v1 v2)
          let rv := { rv with angular := (angle / framedt) * vscale }
          if isinf rv.axis.x || isinf rv.axis.y || isinf rv.axis.z || isinf rv.angular ||
              isnan rv.axis.x || isnan rv.axis.y || isnan rv.axis.z || isnan rv.angular then
            pure { rv with axis := ⟨1, 0, 0⟩, angular := 0 }
          else
            pure rv

/-! ## Level set assembly: expansion, pruning and the per-island level sets -/

/-- The method `MeshObject::_expandMeshIsland`. The index `i` is below
`m.vertices.size()`, so the read `m.vertices[i]` is in range. -/
def _expandMeshIsland (sqrt : ℚ → ℚ) (o : MeshObject) (m : TriangleMesh) : TriangleMesh :=
  if m.vertices.isEmpty then
    m
  else
    let vsum := (List.range m.vertices.length).foldl
      (fun (vsum : Vec3) i => vsum + m.vertices.getD i 0) ⟨0, 0, 0⟩
    let centroid := ((1 : ℚ) / (m.vertices.length : ℚ)) • vsum
    let expval : ℚ := (1 / 2) * o._meshExpansion
    let eps : ℚ := 1 / 1000000000
    (List.range m.vertices.length).foldl
      (fun (m : TriangleMesh) i =>
        let v := m.vertices.getD i 0 - centroid
        if |v.x| < eps ∧ |v.y| < eps ∧ |v.z| < eps then
          m
        else
          let v := vmath.normalize sqrt v
          { m with vertices := m.vertices.set i (m.vertices.getD i 0 + expval • v) })
      m

/-- The method `MeshObject::_expandMeshIslands`. -/
def _expandMeshIslands (sqrt : ℚ → ℚ) (o : MeshObject) (islands : List TriangleMesh) :
    List TriangleMesh :=
  let eps : ℚ := 1 / 1000000000
  if |o._meshExpansion| < eps then
    islands
  else
    (List.range islands.length).foldl
      (fun (islands : List TriangleMesh) i =>
        islands.set i (_expandMeshIsland sqrt o (islands.getD i ⟨[], []⟩)))
      islands

/-- The method `MeshLevelSet::disableMultiThreading`. -/
def MeshLevelSet.disableMultiThreading (l : MeshLevelSet) : MeshLevelSet :=
  { l with isMultiThreadingEnabled := false }

/-- The type `MeshIslandWorkItem`: an island mesh and its vertex velocities. -/
structure MeshIslandWorkItem where
  mesh : TriangleMesh
  vertexVelocities : List Vec3

/-- The body of the `while` loop of `MeshObject::_islandMeshLevelSetProducerThread`
for one popped work item `w`: the island level set that is pushed onto the
finished queue. -/
def _islandMeshLevelSetProducerThread_item
    (fastCalculateSignedDistanceField :
      MeshLevelSet → TriangleMesh → List Vec3 → Int → MeshLevelSet)
    (w : MeshIslandWorkItem) (domainLevelSet : MeshLevelSet) (exactBand : Int) :
    MeshLevelSet :=
  let isize := domainLevelSet.isize
  let jsize := domainLevelSet.jsize
  let ksize := domainLevelSet.ksize
  let dx := domainLevelSet.dx
  let islandAABB := AABB.ofPoints w.mesh.vertices
  let gmin := Grid3d.positionToGridIndex islandAABB.getMinPoint dx
  let gmax := Grid3d.positionToGridIndex islandAABB.getMaxPoint dx
  let gmin := { gmin with i := max (gmin.i - exactBand) 0 }
  let gmin := { gmin with j := max (gmin.j - exactBand) 0 }
  let gmin := { gmin with k := max (gmin.k - exactBand) 0 }
  let gmax := { gmax with i := min (gmax.i + exactBand + 1) (isize - 1) }
  let gmax := { gmax with j := min (gmax.j + exactBand + 1) (jsize - 1) }
  let gmax := { gmax with k := min (gmax.k + exactBand + 1) (ksize - 1) }
  let gwidth := gmax.i - gmin.i
  let gheight := gmax.j - gmin.j
  let gdepth := gmax.k - gmin.k
  let islandLevelSet := MeshLevelSet.new gwidth gheight gdepth dx
  let islandLevelSet := islandLevelSet.setGridOffset gmin
  let islandLevelSet := islandLevelSet.disableMultiThreading
  fastCalculateSignedDistanceField islandLevelSet w.mesh w.vertexVelocities exactBand

/-- The call `v.erase(v.begin() + index)` of `std::vector`: defined for an index
inside the vector only. -/
def vectorErase {α : Type} (v : List α) (index : Int) : Option (List α) :=
  if 0 ≤ index ∧ index < v.length then some (v.eraseIdx index.toNat) else none

/-- The erasure loop of `MeshObject::getMeshLevelSet`:
`for (int i = removedVertices.size() - 1; i >= 0; i--)` erases the entry at
`removedVertices[i]`, so the removed indices are visited last to first. -/
def eraseRemovedVertices (removedVertices : List Int) (vertexVelocities : List Vec3) :
    Option (List Vec3) :=
  removedVertices.reverse.foldlM
    (fun (vertexVelocities : List Vec3) index => vectorErase vertexVelocities index)
    vertexVelocities

/-- The entries of a vector whose index (counted from `start`) is not among the
removed indices, in their original order. -/
def survivingFrom {α : Type} (start : Nat) (removed : List Int) : List α → List α
  | [] => []
  | a :: l =>
    if (start : Int) ∈ removed then survivingFrom (start + 1) removed l
    else a :: survivingFrom (start + 1) removed l

/-- The method `MeshObject::_addMeshIslandsToLevelSet`. `calculateUnion` stands for
the method of that name of `MeshLevelSet`; the read `islandVertexVelocities[i]` is
unguarded. -/
def _addMeshIslandsToLevelSet
    (fastCalculateSignedDistanceField :
      MeshLevelSet → TriangleMesh → List Vec3 → Int → MeshLevelSet)
    (calculateUnion : MeshLevelSet → MeshLevelSet → MeshLevelSet)
    (islands : List TriangleMesh) (islandVertexVelocities : List (List Vec3))
    (exactBand : Int) (levelset : MeshLevelSet) : Option MeshLevelSet :=
  (List.range islands.length).foldlM
    (fun (levelset : MeshLevelSet) i => do
      let island ← islands[i]?
      let velocities ← islandVertexVelocities[i]?
      let islandLevelSet := _getMeshIslandLevelSet fastCalculateSignedDistanceField
        island velocities levelset exactBand
      pure (calculateUnion levelset islandLevelSet))
    levelset

/-- The method `MeshObject::getMeshLevelSet`. `removeExtraneousVertices` stands for
the method of that name of `TriangleMesh` (it returns the cleaned mesh and the
removed indices); `fractureOptimization` stands for the threaded method
`_addMeshIslandsToLevelSetFractureOptimization`. -/
def getMeshLevelSet
    (removeExtraneousVertices : TriangleMesh → TriangleMesh × List Int)
    (splitIntoMeshIslands : TriangleMesh → List Vec3 → List TriangleMesh × List (List Vec3))
    (sqrt : ℚ → ℚ)
    (fastCalculateSignedDistanceField :
      MeshLevelSet → TriangleMesh → List Vec3 → Int → MeshLevelSet)
    (calculateUnion : MeshLevelSet → MeshLevelSet → MeshLevelSet)
    (fractureOptimization :
      List TriangleMesh → List (List Vec3) → Int → MeshLevelSet → Option MeshLevelSet)
    (o : MeshObject) (dt : ℚ) (frameInterpolation : ℚ) (exactBand : Int)
    (levelset : MeshLevelSet) : Option MeshLevelSet := do
  let m ← getMesh o frameInterpolation
  let removedVertices := (removeExtraneousVertices m).2
  let m := (removeExtraneousVertices m).1
  let vertexVelocities ← getVertexVelocities o dt frameInterpolation
  let vertexVelocities ← eraseRemovedVertices removedVertices vertexVelocities
  let split ← _getMeshIslands splitIntoMeshIslands m vertexVelocities levelset [] []
  let islands := split.1
  let islandVertexVelocities := split.2
  let islands := _expandMeshIslands sqrt o islands
  if (islands.length : Int) < o._numIslandsForFractureOptimizationTrigger then
    _addMeshIslandsToLevelSet fastCalculateSignedDistanceField calculateUnion
      islands islandVertexVelocities exactBand levelset
  else
    fractureOptimization islands islandVertexVelocities exactBand levelset

/-! ## Sample data for the later examples -/

/-- A stand-in for the square root in the examples; it is 0 at 0. -/
def sampleSqrt : ℚ → ℚ := fun q => q

/-- A stand-in for the arc cosine in the examples. -/
def sampleAcos : ℚ → ℚ := fun _ => 0

/-- The mean of a list of vertex positions (the sum times one over the count). -/
def vertexMean (vertices : List Vec3) : Vec3 :=
  ((1 : ℚ) / (vertices.length : ℚ)) • vertices.foldl (fun (vsum : Vec3) v => vsum + v) 0

/-- An object with `meshExpansion = 2`. -/
def sampleExpanding : MeshObject :=
  { sampleObject 10 10 10 1 with _meshExpansion := 2 }

/-- The position that the expansion gives a vertex `v` of an island whose vertex
mean is `c`: `v` itself when `v - c` is within epsilon of zero in every
coordinate, else `v + 0.5 * meshExpansion * (v - c) / |v - c|`. -/
def expandedVertex (sqrt : ℚ → ℚ) (o : MeshObject) (c v : Vec3) : Vec3 :=
  if |(v - c).x| < 1 / 1000000000 ∧ |(v - c).y| < 1 / 1000000000 ∧
      |(v - c).z| < 1 / 1000000000 then
    v
  else
    v + ((1 / 2) * o._meshExpansion) • ((1 / vmath.length sqrt (v - c)) • (v - c))

/-- An animated object whose next keyframe is the current one moved by
`(1, 0, 0)`, with the same previous keyframe as `sampleAnimated`. -/
def sampleTranslating : MeshObject :=
  updateMeshAnimated (sampleObject 10 10 10 1) (sampleTriangle ⟨0, 0, 0⟩)
    (sampleTriangle ⟨1, 0, 0⟩)
    { vertices := (sampleTriangle ⟨1, 0, 0⟩).vertices.map (fun v => v + ⟨1, 0, 0⟩),
      triangles := (sampleTriangle ⟨1, 0, 0⟩).triangles }

/-- A triangle collapsed to the point `(1, 1, 1)`. -/
def collapsedTriangle : TriangleMesh :=
  { vertices := [⟨1, 1, 1⟩, ⟨1, 1, 1⟩, ⟨1, 1, 1⟩], triangles := [⟨0, 1, 2⟩] }

/-- An animated object whose current keyframe is collapsed to the point
`(1, 1, 1)`. -/
def sampleCollapsed : MeshObject :=
  updateMeshAnimated (sampleObject 10 10 10 1) (sampleTriangle ⟨0, 0, 0⟩)
    collapsedTriangle (sampleTriangle ⟨2, 0, 0⟩)

/-! ## Construction and sequences of geometry updates -/

/-- The constructor `MeshObject::MeshObject(int i, int j, int k, double dx)`. It
sets the grid dimensions and the cell size; the keyframes and the translation
fields are empty vectors. The other members take the default member
initialisers of meshobject.h, which is not among the source files: they are the
parameter `memberDefaults`. The default constructor `MeshObject::MeshObject()` is
the instance at the dimensions and the cell size of `memberDefaults`. -/
def MeshObject.new (memberDefaults : MeshObject) (i j k : Int) (dx : ℚ) : MeshObject :=
  { memberDefaults with
    _isize := i
    _jsize := j
    _ksize := k
    _dx := dx
    _meshPrevious := ⟨[], []⟩
    _meshCurrent := ⟨[], []⟩
    _meshNext := ⟨[], []⟩
    _vertexTranslationsCurrent := []
    _vertexTranslationsNext := [] }

/-- A geometry update of the driver: a call of `updateMeshStatic` or of
`updateMeshAnimated` with its arguments. -/
inductive MeshUpdate where
  | static (meshCurrent : TriangleMesh)
  | animated (meshPrevious meshCurrent meshNext : TriangleMesh)

/-- The state after one geometry update. -/
def applyUpdate (o : MeshObject) : MeshUpdate → MeshObject
  | MeshUpdate.static meshCurrent => updateMeshStatic o meshCurrent
  | MeshUpdate.animated meshPrevious meshCurrent meshNext =>
    updateMeshAnimated o meshPrevious meshCurrent meshNext

/-- The state after a sequence of geometry updates, first call first. -/
def applyUpdates (o : MeshObject) (calls : List MeshUpdate) : MeshObject :=
  calls.foldl applyUpdate o

/-! ## Sample data for the reference point example -/

/-- A square root that is exact on the squares of rationals: the integer square
roots of numerator and denominator (rounded down on other arguments). -/
def squareRoot (q : ℚ) : ℚ :=
  (Nat.sqrt q.num.toNat : ℚ) / (Nat.sqrt q.den : ℚ)

/-- A stand-in for the arc cosine that is not constant: exact at 1, about
`pi / 2` at 0. -/
def sampleArcCosine : ℚ → ℚ := fun x => (157 / 100) * (1 - x)

/-- A current keyframe with centroid `(0, 0, 0)`: two vertices at distance 14 from
the centroid and one at the centroid. -/
def rotationCurrent : TriangleMesh :=
  { vertices := [⟨14, 0, 0⟩, ⟨-14, 0, 0⟩, ⟨0, 0, 0⟩], triangles := [⟨0, 1, 2⟩] }

/-- A next keyframe for `rotationCurrent`: vertex 0 ends at distance 1/200000
(half the epsilon 1e-5) from the current centroid, vertex 1 at the current
centroid; the centroid of this keyframe is `(1/200000 - 5, -12, 0)`. -/
def rotationNext : TriangleMesh :=
  { vertices := [⟨1 / 200000, 0, 0⟩, ⟨0, 0, 0⟩, ⟨1 / 100000 - 15, -36, 0⟩],
    triangles := [⟨0, 1, 2⟩] }

/-- The animated object with keyframes `rotationCurrent` and `rotationNext`. -/
def sampleRotating : MeshObject :=
  updateMeshAnimated (sampleObject 10 10 10 1) rotationCurrent rotationCurrent rotationNext

/-! # Theorems -/

/-! ## Vector algebra -/

/-- Componentwise form of the sum. -/
theorem Vec3.add_def (a b : Vec3) : a + b = ⟨a.x + b.x, a.y + b.y, a.z + b.z⟩ := rfl

/-- Componentwise form of the difference. -/
theorem Vec3.sub_def (a b : Vec3) : a - b = ⟨a.x - b.x, a.y - b.y, a.z - b.z⟩ := rfl

/-- Componentwise form of the scaling. -/
theorem Vec3.smul_def (s : ℚ) (a : Vec3) : s • a = ⟨s * a.x, s * a.y, s * a.z⟩ := rfl

/-- Components of the zero vector. -/
theorem Vec3.zero_def : (0 : Vec3) = ⟨0, 0, 0⟩ := rfl

/-- Interpolation at fraction 0 gives the first end point. -/
theorem Vec3.lerp_zero (v1 v2 : Vec3) : v1 + (0 : ℚ) • (v2 - v1) = v1 := by
  cases v1; cases v2; simp [Vec3.add_def, Vec3.sub_def, Vec3.smul_def]

/-- Interpolation at fraction 1 gives the second end point. -/
theorem Vec3.lerp_one (v1 v2 : Vec3) : v1 + (1 : ℚ) • (v2 - v1) = v2 := by
  cases v1; cases v2; simp [Vec3.add_def, Vec3.sub_def, Vec3.smul_def]

/-! ## Loops that overwrite a vector entry by entry -/

/-- The loop `for i < n: out[i] = f(i)`: entry by entry description. -/
theorem foldl_set_getElem? {α : Type} (f : Nat → α) (n : Nat) (init : List α) (j : Nat) :
    ((List.range n).foldl (fun out i => out.set i (f i)) init)[j]? =
      if j < n ∧ j < init.length then some (f j) else init[j]? := by
  induction n with
  | zero => simp
  | succ n ih =>
    rw [List.range_succ, List.foldl_append]
    simp only [List.foldl_cons, List.foldl_nil, List.getElem?_set]
    have hlen : ((List.range n).foldl (fun out i => out.set i (f i)) init).length = init.length := by
      clear ih
      induction n with
      | zero => simp
      | succ n ih2 => rw [List.range_succ, List.foldl_append]; simp [ih2]
    rw [hlen, ih]
    by_cases h1 : n = j
    · subst h1
      by_cases h2 : n < init.length
      · simp [h2]
      · simp [h2]
        omega
    · simp only [h1, if_false]
      by_cases h3 : j < n
      · have : j < n + 1 := by omega
        simp [h3, this]
      · have : ¬ j < n + 1 := by omega
        simp [h3, this]

/-- The loop `for i < n: out[i] = f(i)` keeps the length of the vector. -/
theorem foldl_set_length {α : Type} (f : Nat → α) (n : Nat) (init : List α) :
    ((List.range n).foldl (fun out i => out.set i (f i)) init).length = init.length := by
  induction n with
  | zero => simp
  | succ n ih => rw [List.range_succ, List.foldl_append]; simp [ih]


/-- A loop whose body succeeds at every index below the bound is the total loop. -/
theorem foldlM_eq_foldl {β : Type} (body : β → Nat → Option β) (step : β → Nat → β) (n : Nat)
    (h : ∀ i, i < n → ∀ s, body s i = some (step s i)) (init : β) :
    (List.range n).foldlM body init = some ((List.range n).foldl step init) := by
  induction n with
  | zero => simp
  | succ n ih =>
    rw [List.range_succ, List.foldlM_append, List.foldl_append,
      ih (fun i hi s => h i (by omega) s)]
    simp [h n (by omega)]

/-- The vertex loop of `getMesh` only touches the vertex list. -/
theorem foldl_mesh_vertices (f : Nat → Vec3) (n : Nat) (init : TriangleMesh) :
    (List.range n).foldl
        (fun (outmesh : TriangleMesh) i =>
          { outmesh with vertices := outmesh.vertices.set i (f i) }) init =
      { init with
        vertices := (List.range n).foldl (fun out i => out.set i (f i)) init.vertices } := by
  induction n with
  | zero => simp
  | succ n ih => rw [List.range_succ, List.foldl_append, List.foldl_append, ih]; simp

/-! ## The keyframe store after `updateMeshAnimated` -/

/-- The three keyframes are stored as given and the object is animated. -/
theorem updateMeshAnimated_meshes (o : MeshObject) (prev cur next : TriangleMesh) :
    (updateMeshAnimated o prev cur next)._meshPrevious = prev ∧
    (updateMeshAnimated o prev cur next)._meshCurrent = cur ∧
    (updateMeshAnimated o prev cur next)._meshNext = next ∧
    (updateMeshAnimated o prev cur next)._isAnimated = true := by
  unfold updateMeshAnimated
  dsimp only
  split_ifs <;> simp

/-- The current translation field after the update. -/
theorem updateMeshAnimated_translationsCurrent (o : MeshObject) (prev cur next : TriangleMesh) :
    (updateMeshAnimated o prev cur next)._vertexTranslationsCurrent =
      if prev.vertices.length = cur.vertices.length then
        (List.range cur.vertices.length).foldl
          (fun tr i => tr.set i (cur.vertices.getD i 0 - prev.vertices.getD i 0))
          (List.replicate cur.vertices.length 0)
      else List.replicate cur.vertices.length 0 := by
  unfold updateMeshAnimated
  simp only []
  split_ifs <;> rfl

/-- The next translation field after the update. -/
theorem updateMeshAnimated_translationsNext (o : MeshObject) (prev cur next : TriangleMesh) :
    (updateMeshAnimated o prev cur next)._vertexTranslationsNext =
      if next.vertices.length = cur.vertices.length then
        (List.range cur.vertices.length).foldl
          (fun tr i => tr.set i (next.vertices.getD i 0 - cur.vertices.getD i 0))
          (List.replicate next.vertices.length 0)
      else List.replicate next.vertices.length 0 := by
  unfold updateMeshAnimated
  simp only []
  split_ifs <;> rfl

/-- The topology flag after the update is set exactly on a vertex count mismatch. -/
theorem updateMeshAnimated_isChangingTopology (o : MeshObject) (prev cur next : TriangleMesh) :
    (updateMeshAnimated o prev cur next)._isChangingTopology = true ↔
      (prev.vertices.length ≠ cur.vertices.length ∨
        next.vertices.length ≠ cur.vertices.length) := by
  unfold updateMeshAnimated
  simp only []
  split_ifs with h1 h2 h2 <;> simp [h1, h2]

/-- Equal vertex counts leave the topology flag clear. -/
theorem updateMeshAnimated_unchanged (o : MeshObject) (prev cur next : TriangleMesh)
    (h1 : prev.vertices.length = cur.vertices.length)
    (h2 : next.vertices.length = cur.vertices.length) :
    (updateMeshAnimated o prev cur next)._isChangingTopology = false := by
  cases hflag : (updateMeshAnimated o prev cur next)._isChangingTopology with
  | false => rfl
  | true =>
    rcases (updateMeshAnimated_isChangingTopology o prev cur next).1 hflag with h | h
    · exact absurd h1 h
    · exact absurd h2 h

/-- Without topology change and with a next keyframe at least as long as the
current one, `getMesh` returns the current mesh with every vertex interpolated. -/
theorem getMesh_eq (o : MeshObject) (t : ℚ) (hT : o._isChangingTopology = false)
    (hlen : o._meshCurrent.vertices.length ≤ o._meshNext.vertices.length) :
    getMesh o t = some { o._meshCurrent with
      vertices := (List.range o._meshCurrent.vertices.length).foldl
        (fun out i => out.set i
          (o._meshCurrent.vertices.getD i 0 +
            (min 1 (max 0 t)) • (o._meshNext.vertices.getD i 0 - o._meshCurrent.vertices.getD i 0)))
        o._meshCurrent.vertices } := by
  unfold getMesh
  simp only [hT, Bool.false_eq_true, if_false]
  rw [foldlM_eq_foldl _
    (fun (outmesh : TriangleMesh) i =>
      { outmesh with
        vertices := outmesh.vertices.set i (o._meshCurrent.vertices.getD i 0 +
          (min 1 (max 0 t)) • (o._meshNext.vertices.getD i 0 - o._meshCurrent.vertices.getD i 0)) })]
  · rw [foldl_mesh_vertices]
  · intro i hi s
    have h1 : i < o._meshNext.vertices.length := by omega
    simp [List.getElem?_eq_getElem hi, List.getElem?_eq_getElem h1, List.getD_eq_getElem?_getD]


/-- Without topology change and with a next translation field at least as long
as the current one, `getVertexTranslations` returns the blended field. -/
theorem getVertexTranslations_eq (o : MeshObject) (t : ℚ) (hT : o._isChangingTopology = false)
    (hlen : o._vertexTranslationsCurrent.length ≤ o._vertexTranslationsNext.length) :
    getVertexTranslations o t = some ((List.range o._vertexTranslationsCurrent.length).foldl
        (fun out i => out.set i
          (o._vertexTranslationsCurrent.getD i 0 +
            (min 1 (max 0 t)) •
              (o._vertexTranslationsNext.getD i 0 - o._vertexTranslationsCurrent.getD i 0)))
        (List.replicate o._vertexTranslationsCurrent.length 0)) := by
  unfold getVertexTranslations
  simp only [hT, Bool.false_eq_true, if_false]
  rw [foldlM_eq_foldl]
  intro i hi s
  have h1 : i < o._vertexTranslationsNext.length := by omega
  simp [List.getElem?_eq_getElem hi, List.getElem?_eq_getElem h1, List.getD_eq_getElem?_getD]

/-- Both interpolation queries see the frame fraction only through its clamp. -/
theorem getMesh_congr_clamp (o : MeshObject) (t s : ℚ) (h : min 1 (max 0 t) = min 1 (max 0 s)) :
    getMesh o t = getMesh o s ∧ getVertexTranslations o t = getVertexTranslations o s := by
  unfold getMesh getVertexTranslations
  simp only [h, and_self]

/-- At frame fraction 0 the interpolated mesh is the current keyframe. -/
theorem getMesh_at_zero (o : MeshObject) (hT : o._isChangingTopology = false)
    (hnext : o._meshCurrent.vertices.length ≤ o._meshNext.vertices.length) :
    getMesh o 0 = some o._meshCurrent := by
  rw [getMesh_eq o 0 hT hnext]
  congr 1
  cases hm : o._meshCurrent with
  | mk vs ts =>
    simp only [TriangleMesh.mk.injEq, and_true]
    apply List.ext_getElem?
    intro j
    rw [foldl_set_getElem?]
    by_cases hj : j < vs.length
    · simp [hj, Vec3.lerp_zero, List.getD_eq_getElem?_getD, List.getElem?_eq_getElem hj]
    · simp [hj]

/-- At frame fraction 1 the interpolated mesh has the vertices of the next
keyframe (vertex counts being equal) and the triangles of the current one. -/
theorem getMesh_at_one (o : MeshObject) (hT : o._isChangingTopology = false)
    (hnext : o._meshNext.vertices.length = o._meshCurrent.vertices.length) :
    getMesh o 1 =
      some { vertices := o._meshNext.vertices, triangles := o._meshCurrent.triangles } := by
  rw [getMesh_eq o 1 hT (by omega)]
  congr 1
  simp only [TriangleMesh.mk.injEq, and_true]
  apply List.ext_getElem?
  intro j
  rw [foldl_set_getElem?]
  by_cases hj : j < o._meshCurrent.vertices.length
  · have hj2 : j < o._meshNext.vertices.length := by omega
    simp [hj, Vec3.lerp_one, List.getD_eq_getElem?_getD, List.getElem?_eq_getElem hj2]
  · have hj2 : ¬ j < o._meshNext.vertices.length := by omega
    simp [hj]
    rw [List.getElem?_eq_none (by omega), List.getElem?_eq_none (by omega)]

/-- C3: when topology is unchanged (the flag is clear and the previous, current
and next keyframes have equal vertex counts), `getMesh(0)` is the current
keyframe and `getMesh(1)` has exactly the vertices of the next keyframe and the
triangles of the current one. This holds in every such state, and in particular
in the state left by `updateMeshAnimated` on keyframes of equal vertex counts. -/
theorem getMesh_endpoints :
    (∀ o : MeshObject, o._isChangingTopology = false →
      o._meshPrevious.vertices.length = o._meshCurrent.vertices.length →
      o._meshNext.vertices.length = o._meshCurrent.vertices.length →
        getMesh o 0 = some o._meshCurrent ∧
        getMesh o 1 =
          some { vertices := o._meshNext.vertices, triangles := o._meshCurrent.triangles }) ∧
    (∀ (o : MeshObject) (prev cur next : TriangleMesh),
      prev.vertices.length = cur.vertices.length →
      next.vertices.length = cur.vertices.length →
        getMesh (updateMeshAnimated o prev cur next) 0 = some cur ∧
        getMesh (updateMeshAnimated o prev cur next) 1 =
          some { vertices := next.vertices, triangles := cur.triangles }) := by
  have hstate : ∀ o : MeshObject, o._isChangingTopology = false →
      o._meshNext.vertices.length = o._meshCurrent.vertices.length →
        getMesh o 0 = some o._meshCurrent ∧
        getMesh o 1 =
          some { vertices := o._meshNext.vertices, triangles := o._meshCurrent.triangles } :=
    fun o hT hnext => ⟨getMesh_at_zero o hT (by omega), getMesh_at_one o hT hnext⟩
  refine ⟨fun o hT _ hnext => hstate o hT hnext, fun o prev cur next hprev hnext => ?_⟩
  obtain ⟨_, hc, hn, _⟩ := updateMeshAnimated_meshes o prev cur next
  have hflag := updateMeshAnimated_unchanged o prev cur next hprev hnext
  have h := hstate (updateMeshAnimated o prev cur next) hflag (by rw [hc, hn]; exact hnext)
  rw [hc, hn] at h
  exact h

/-- Witness for C3: a triangle moving along x. -/
theorem getMesh_endpoints_witness :
    sampleAnimated._isChangingTopology = false ∧
    sampleAnimated._meshPrevious.vertices.length = sampleAnimated._meshCurrent.vertices.length ∧
    sampleAnimated._meshNext.vertices.length = sampleAnimated._meshCurrent.vertices.length ∧
    getMesh sampleAnimated 0 = some (sampleTriangle ⟨1, 0, 0⟩) ∧
    getMesh sampleAnimated 1 = some (sampleTriangle ⟨2, 0, 0⟩) :=
  ⟨rfl, rfl, rfl, getMesh_endpoints.1 sampleAnimated rfl rfl rfl⟩

/-- C4: outside [0,1] both interpolation queries return the result at the clamped
boundary (the result at 0 below 0, the result at 1 above 1), the result at `t` is
the result at `clamp(t,0,1)`, and clamping is idempotent. -/
theorem getMesh_clamp (o : MeshObject) (t : ℚ) :
    (t < 0 → getMesh o t = getMesh o 0 ∧
      getVertexTranslations o t = getVertexTranslations o 0) ∧
    (1 < t → getMesh o t = getMesh o 1 ∧
      getVertexTranslations o t = getVertexTranslations o 1) ∧
    getMesh o t = getMesh o (min 1 (max 0 t)) ∧
    getVertexTranslations o t = getVertexTranslations o (min 1 (max 0 t)) ∧
    min 1 (max 0 (min 1 (max 0 t))) = min 1 (max 0 t) := by
  have hidem : min 1 (max 0 (min 1 (max 0 t))) = min 1 (max 0 t) := by
    rcases le_total t 0 with h | h
    · simp [max_eq_left h]
    · rcases le_total t 1 with h1 | h1
      · simp [max_eq_right h, min_eq_right h1, h]
      · simp [max_eq_right h, min_eq_left h1]
  refine ⟨fun h => ?_, fun h => ?_, ?_, ?_, hidem⟩
  · apply getMesh_congr_clamp
    simp [max_eq_left h.le]
  · apply getMesh_congr_clamp
    have h0 : (0 : ℚ) ≤ t := by linarith
    simp [max_eq_right h0, min_eq_left h.le]
  · exact (getMesh_congr_clamp o t _ hidem.symm).1
  · exact (getMesh_congr_clamp o t _ hidem.symm).2

/-- Witness for C4: the frame fractions -1 and 2. -/
theorem getMesh_clamp_witness :
    ((-1 : ℚ) < 0 ∧ getMesh sampleAnimated (-1) = getMesh sampleAnimated 0 ∧
      getVertexTranslations sampleAnimated (-1) = getVertexTranslations sampleAnimated 0) ∧
    ((1 : ℚ) < 2 ∧ getMesh sampleAnimated 2 = getMesh sampleAnimated 1 ∧
      getVertexTranslations sampleAnimated 2 = getVertexTranslations sampleAnimated 1) :=
  ⟨⟨by norm_num, (getMesh_clamp sampleAnimated (-1)).1 (by norm_num)⟩,
    ⟨by norm_num, (getMesh_clamp sampleAnimated 2).2.1 (by norm_num)⟩⟩

/-- C5: while topology is changing `getMesh` returns the current keyframe for
every frame fraction, whatever the next keyframe holds (it is never read). -/
theorem getMesh_changing_topology (o : MeshObject) (t : ℚ)
    (hT : o._isChangingTopology = true) :
    getMesh o t = some o._meshCurrent ∧
    ∀ next : TriangleMesh, getMesh { o with _meshNext := next } t = some o._meshCurrent := by
  constructor
  · simp [getMesh, hT]
  · intro next
    simp [getMesh, hT]

/-- Witness for C5: a keyframe triple whose previous mesh has another vertex count. -/
theorem getMesh_changing_topology_witness :
    sampleChanging._isChangingTopology = true ∧
    getMesh sampleChanging (1 / 2) = some (sampleTriangle ⟨1, 0, 0⟩) :=
  ⟨rfl, (getMesh_changing_topology sampleChanging (1 / 2) rfl).1⟩

/-- C6: for `dt < 1e-10` (zero and negative included) the velocity field is the
zero field with one entry per entry of the interpolated translation field; the
reciprocal of `dt` is not used. The result is returned whenever the translation
query returns, which it does in every state whose topology flag is set or whose
next translation field is at least as long as the current one. -/
theorem getVertexVelocities_small_dt (o : MeshObject) (dt t : ℚ)
    (hdt : dt < 1 / 10000000000) :
    getVertexVelocities o dt t =
      (getVertexTranslations o t).map (fun tr => List.replicate tr.length (0 : Vec3)) ∧
    ((o._isChangingTopology = true ∨
        o._vertexTranslationsCurrent.length ≤ o._vertexTranslationsNext.length) →
      ∃ tr, getVertexTranslations o t = some tr ∧
        getVertexVelocities o dt t = some (List.replicate tr.length 0)) := by
  have key : getVertexVelocities o dt t =
      (getVertexTranslations o t).map (fun tr => List.replicate tr.length (0 : Vec3)) := by
    unfold getVertexVelocities
    cases getVertexTranslations o t with
    | none => rfl
    | some tr =>
      show (if dt < 1 / 10000000000 then _ else _) = _
      rw [if_pos hdt]
      rfl
  refine ⟨key, fun h => ?_⟩
  have hex : ∃ tr, getVertexTranslations o t = some tr := by
    cases hT : o._isChangingTopology with
    | true => exact ⟨o._vertexTranslationsCurrent, by simp [getVertexTranslations, hT]⟩
    | false =>
      rcases h with h | h
      · rw [hT] at h; cases h
      · exact ⟨_, getVertexTranslations_eq o t hT h⟩
  obtain ⟨tr, htr⟩ := hex
  exact ⟨tr, htr, by rw [key, htr]; rfl⟩


/-- Witness for C6: `dt = 0`. -/
theorem getVertexVelocities_small_dt_witness :
    (0 : ℚ) < 1 / 10000000000 ∧
    getVertexVelocities sampleAnimated 0 (1 / 2) =
      (getVertexTranslations sampleAnimated (1 / 2)).map
        (fun tr => List.replicate tr.length (0 : Vec3)) :=
  ⟨by norm_num, (getVertexVelocities_small_dt sampleAnimated 0 (1 / 2) (by norm_num)).1⟩

/-! ## Claims on the keyframe store -/

/-- C7: after `updateMeshAnimated(prev, cur, next)` with all three vertex counts
equal, the keyframes are stored as given, both translation fields have one
entry per vertex with `translationsCurrent[i] = cur[i] - prev[i]` and
`translationsNext[i] = next[i] - cur[i]`, `isChangingTopology` is false and
`isAnimated` is true; `isAnimated` is true after the call whatever the counts. -/
theorem updateMeshAnimated_equal_counts (o : MeshObject) :
    (∀ prev cur next : TriangleMesh,
      prev.vertices.length = cur.vertices.length →
      next.vertices.length = cur.vertices.length →
        (updateMeshAnimated o prev cur next)._meshPrevious = prev ∧
        (updateMeshAnimated o prev cur next)._meshCurrent = cur ∧
        (updateMeshAnimated o prev cur next)._meshNext = next ∧
        (updateMeshAnimated o prev cur next)._vertexTranslationsCurrent.length =
          cur.vertices.length ∧
        (updateMeshAnimated o prev cur next)._vertexTranslationsNext.length =
          cur.vertices.length ∧
        (∀ (i : Nat) (c p : Vec3), cur.vertices[i]? = some c → prev.vertices[i]? = some p →
          (updateMeshAnimated o prev cur next)._vertexTranslationsCurrent[i]? = some (c - p)) ∧
        (∀ (i : Nat) (c n : Vec3), cur.vertices[i]? = some c → next.vertices[i]? = some n →
          (updateMeshAnimated o prev cur next)._vertexTranslationsNext[i]? = some (n - c)) ∧
        (updateMeshAnimated o prev cur next)._isChangingTopology = false ∧
        (updateMeshAnimated o prev cur next)._isAnimated = true) ∧
    (∀ prev cur next : TriangleMesh,
      (updateMeshAnimated o prev cur next)._isAnimated = true) := by
  refine ⟨fun prev cur next h1 h2 => ?_, fun prev cur next =>
    (updateMeshAnimated_meshes o prev cur next).2.2.2⟩
  obtain ⟨hp, hc, hn, ha⟩ := updateMeshAnimated_meshes o prev cur next
  refine ⟨hp, hc, hn, ?_, ?_, ?_, ?_, ?_, ha⟩
  · rw [updateMeshAnimated_translationsCurrent, if_pos h1, foldl_set_length]; simp
  · rw [updateMeshAnimated_translationsNext, if_pos h2, foldl_set_length]; simp [h2]
  · intro i c p hci hpi
    have hi : i < cur.vertices.length := by
      by_contra hcon
      rw [List.getElem?_eq_none (by omega)] at hci
      cases hci
    rw [updateMeshAnimated_translationsCurrent, if_pos h1, foldl_set_getElem?]
    simp [hi, List.getD_eq_getElem?_getD, hci, hpi]
  · intro i c n hci hni
    have hi : i < cur.vertices.length := by
      by_contra hcon
      rw [List.getElem?_eq_none (by omega)] at hci
      cases hci
    rw [updateMeshAnimated_translationsNext, if_pos h2, foldl_set_getElem?]
    simp [hi, h2, List.getD_eq_getElem?_getD, hci, hni]
  · cases hflag : (updateMeshAnimated o prev cur next)._isChangingTopology with
    | false => rfl
    | true =>
      rcases (updateMeshAnimated_isChangingTopology o prev cur next).1 hflag with h | h
      · exact absurd h1 h
      · exact absurd h2 h

/-- Witness for C7: three triangles. -/
theorem updateMeshAnimated_equal_counts_witness :
    (sampleTriangle ⟨0, 0, 0⟩).vertices.length = (sampleTriangle ⟨1, 0, 0⟩).vertices.length ∧
    (sampleTriangle ⟨2, 0, 0⟩).vertices.length = (sampleTriangle ⟨1, 0, 0⟩).vertices.length ∧
    sampleAnimated._isChangingTopology = false ∧ sampleAnimated._isAnimated = true :=
  ⟨rfl, rfl, ((updateMeshAnimated_equal_counts (sampleObject 10 10 10 1)).1
    (sampleTriangle ⟨0, 0, 0⟩) (sampleTriangle ⟨1, 0, 0⟩) (sampleTriangle ⟨2, 0, 0⟩)
    rfl rfl).2.2.2.2.2.2.2⟩

/-- C8 (amended): after `updateMeshAnimated(prev, cur, next)` the flag
`isChangingTopology` is set exactly when the vertex count of `prev` or of `next`
differs from that of `cur`; when the count of `prev` differs,
`translationsCurrent` is the all-zero field with one entry per vertex of `cur`,
and when the count of `next` differs, `translationsNext` is the all-zero field
with one entry per vertex of `next`. -/
theorem updateMeshAnimated_topology_change (o : MeshObject) (prev cur next : TriangleMesh) :
    ((updateMeshAnimated o prev cur next)._isChangingTopology = true ↔
      (prev.vertices.length ≠ cur.vertices.length ∨
        next.vertices.length ≠ cur.vertices.length)) ∧
    (prev.vertices.length ≠ cur.vertices.length →
      (updateMeshAnimated o prev cur next)._vertexTranslationsCurrent =
        List.replicate cur.vertices.length 0) ∧
    (next.vertices.length ≠ cur.vertices.length →
      (updateMeshAnimated o prev cur next)._vertexTranslationsNext =
        List.replicate next.vertices.length 0) := by
  refine ⟨updateMeshAnimated_isChangingTopology o prev cur next, fun h => ?_, fun h => ?_⟩
  · rw [updateMeshAnimated_translationsCurrent, if_neg h]
  · rw [updateMeshAnimated_translationsNext, if_neg h]

/-- Witness for C8 (amended): a previous keyframe with one vertex. -/
theorem updateMeshAnimated_topology_change_witness :
    samplePoint.vertices.length ≠ (sampleTriangle ⟨1, 0, 0⟩).vertices.length ∧
    sampleChanging._vertexTranslationsCurrent =
      List.replicate (sampleTriangle ⟨1, 0, 0⟩).vertices.length 0 :=
  ⟨by decide, (updateMeshAnimated_topology_change (sampleObject 10 10 10 1) samplePoint
    (sampleTriangle ⟨1, 0, 0⟩) (sampleTriangle ⟨2, 0, 0⟩)).2.1 (by decide)⟩

/-- C8 (counterexample): the vertex count of the previous keyframe (1) differs
from that of the current keyframe (3), and `translationsCurrent` is not left
empty: it holds three zero vectors. Likewise `translationsNext` holds one zero
vector when the next keyframe has one vertex and the current one three. -/
theorem updateMeshAnimated_translations_not_empty :
    samplePoint.vertices.length ≠ (sampleTriangle ⟨1, 0, 0⟩).vertices.length ∧
    (updateMeshAnimated (sampleObject 10 10 10 1) samplePoint (sampleTriangle ⟨1, 0, 0⟩)
      (sampleTriangle ⟨2, 0, 0⟩))._vertexTranslationsCurrent = [0, 0, 0] ∧
    (updateMeshAnimated (sampleObject 10 10 10 1) samplePoint (sampleTriangle ⟨1, 0, 0⟩)
      (sampleTriangle ⟨2, 0, 0⟩))._vertexTranslationsCurrent ≠ [] ∧
    (updateMeshAnimated (sampleObject 10 10 10 1) (sampleTriangle ⟨0, 0, 0⟩)
      (sampleTriangle ⟨1, 0, 0⟩) samplePoint)._vertexTranslationsNext = [0] ∧
    (updateMeshAnimated (sampleObject 10 10 10 1) (sampleTriangle ⟨0, 0, 0⟩)
      (sampleTriangle ⟨1, 0, 0⟩) samplePoint)._vertexTranslationsNext ≠ [] := by
  have h1 : (updateMeshAnimated (sampleObject 10 10 10 1) samplePoint (sampleTriangle ⟨1, 0, 0⟩)
      (sampleTriangle ⟨2, 0, 0⟩))._vertexTranslationsCurrent = [0, 0, 0] := by
    rw [updateMeshAnimated_translationsCurrent, if_neg (by decide)]
    rfl
  have h2 : (updateMeshAnimated (sampleObject 10 10 10 1) (sampleTriangle ⟨0, 0, 0⟩)
      (sampleTriangle ⟨1, 0, 0⟩) samplePoint)._vertexTranslationsNext = [0] := by
    rw [updateMeshAnimated_translationsNext, if_neg (by decide)]
    rfl
  refine ⟨by decide, h1, ?_, h2, ?_⟩
  · rw [h1]; exact List.cons_ne_nil _ _
  · rw [h2]; exact List.cons_ne_nil _ _

/-! ## Occupancy: the dilation loops -/

/-- The loop indices of `for (int i = 0; i < n; i++)` are the `i` with `0 ≤ i < n`. -/
theorem mem_intRange (n x : Int) : x ∈ intRange n ↔ 0 ≤ x ∧ x < n := by
  unfold intRange
  simp only [List.mem_map, List.mem_range]
  constructor
  · rintro ⟨a, ha, rfl⟩
    constructor
    · exact Int.ofNat_nonneg a
    · have : (a : Int) < (n.toNat : Int) := by exact_mod_cast ha
      have h2 : ((n.toNat : Int)) = max n 0 := Int.toNat_eq_max n
      rw [h2] at this
      rcases le_total n 0 with h | h
      · rw [max_eq_right h] at this
        have := Int.ofNat_nonneg a
        omega
      · rw [max_eq_left h] at this
        exact this
  · rintro ⟨h0, h1⟩
    refine ⟨x.toNat, ?_, ?_⟩
    · omega
    · simp [Int.toNat_of_nonneg h0]

/-- No loop index is visited twice. -/
theorem nodup_intRange (n : Int) : (intRange n).Nodup := by
  unfold intRange
  exact (List.nodup_range _).map (fun a b h => Int.ofNat.inj h)

/-- A loop that can only switch an observed flag on: the flag after the loop is
the flag before, or the disjunction of what each iteration contributes. -/
theorem foldl_or_inv {σ X : Type} (I : σ → Prop) (obs : σ → Bool) (q : X → Bool)
    (step : σ → X → σ)
    (h : ∀ s x, I s → I (step s x) ∧ obs (step s x) = (obs s || q x))
    (xs : List X) (s : σ) (hs : I s) :
    I (xs.foldl step s) ∧ obs (xs.foldl step s) = (obs s || xs.any q) := by
  induction xs generalizing s with
  | nil => simp [hs]
  | cons x xs ih =>
    obtain ⟨h1, h2⟩ := h s x hs
    obtain ⟨h3, h4⟩ := ih (step s x) h1
    refine ⟨h3, ?_⟩
    simp only [List.foldl_cons, List.any_cons]
    rw [h4, h2, Bool.or_assoc]

/-- The node loops of `getCells`, for any selection `sel` of nodes: the cell
`(a, b, c)` is set afterwards iff it was set before or it is an in-range
neighbour cell of a selected node. -/
theorem dilate_get (sel : Int → Int → Int → Bool) (W H D w h d : Int)
    (cellGrid : Array3d Bool) (hdims : cellGrid.HasDims w h d) (a b c : Int) :
    ((intRange D).foldl (fun cellGrid k =>
      (intRange H).foldl (fun cellGrid j =>
        (intRange W).foldl (fun cellGrid i =>
          if sel i j k then
            (Grid3d.getVertexGridIndexNeighbours i j k).foldl (fun cellGrid (n : GridIndex) =>
              if cellGrid.isIndexInRange n then cellGrid.set n true else cellGrid) cellGrid
          else cellGrid)
          cellGrid) cellGrid) cellGrid).get a b c =
      (cellGrid.get a b c ||
        (intRange D).any (fun k => (intRange H).any (fun j => (intRange W).any (fun i =>
          sel i j k && (Grid3d.getVertexGridIndexNeighbours i j k).any (fun n =>
            decide (n = GridIndex.mk a b c) &&
              decide (0 ≤ a ∧ 0 ≤ b ∧ 0 ≤ c ∧ a < w ∧ b < h ∧ c < d)))))) := by
  refine (foldl_or_inv (Array3d.HasDims w h d) (fun cg => cg.get a b c) _ _ ?_ _ _ hdims).2
  intro s k hs
  refine foldl_or_inv (Array3d.HasDims w h d) (fun cg => cg.get a b c) _ _ ?_ _ _ hs
  intro s j hs
  refine foldl_or_inv (Array3d.HasDims w h d) (fun cg => cg.get a b c) _ _ ?_ _ _ hs
  intro s i hs
  cases hsel : sel i j k with
  | false => simp [hs]
  | true =>
    simp only [if_true, Bool.true_and]
    refine foldl_or_inv (Array3d.HasDims w h d) (fun cg => cg.get a b c) _ _ ?_ _ _ hs
    intro s n hs
    obtain ⟨hw, hh, hd⟩ := hs
    by_cases hr : s.isIndexInRange n = true
    · rw [if_pos hr]
      refine ⟨⟨hw, hh, hd⟩, ?_⟩
      simp only [Array3d.set]
      simp only [Array3d.isIndexInRange, hw, hh, hd, decide_eq_true_eq] at hr
      by_cases hn : n = GridIndex.mk a b c
      · subst hn
        simp at hr
        simp [hr]
      · have : ¬ (a = n.i ∧ b = n.j ∧ c = n.k) := by
          rintro ⟨h1, h2, h3⟩
          apply hn
          cases n
          simp_all
        simp [this, hn]
    · rw [if_neg hr]
      refine ⟨⟨hw, hh, hd⟩, ?_⟩
      simp only [Array3d.isIndexInRange, hw, hh, hd, decide_eq_true_eq] at hr
      by_cases hn : n = GridIndex.mk a b c
      · subst hn
        simp at hr
        have : ¬ (0 ≤ a ∧ 0 ≤ b ∧ 0 ≤ c ∧ a < w ∧ b < h ∧ c < d) := by
          rintro ⟨h1, h2, h3, h4, h5, h6⟩
          have := hr h1 h2 h3 h4 h5
          omega
        simp [this]
      · simp [hn]


/-- For a cell of an `isize x jsize x ksize` grid and nodes scanned over
`(isize+1) x (jsize+1) x (ksize+1)`, being an in-range neighbour cell of a selected
node is having a selected corner node. -/
theorem any_neighbour_eq_anyCornerNode (sel : Int → Int → Int → Bool) (isize jsize ksize : Int)
    (a b c : Int) (hr : 0 ≤ a ∧ 0 ≤ b ∧ 0 ≤ c ∧ a < isize ∧ b < jsize ∧ c < ksize) :
    (intRange (ksize + 1)).any (fun k => (intRange (jsize + 1)).any (fun j =>
      (intRange (isize + 1)).any (fun i =>
        sel i j k && (Grid3d.getVertexGridIndexNeighbours i j k).any (fun n =>
          decide (n = GridIndex.mk a b c) &&
            decide (0 ≤ a ∧ 0 ≤ b ∧ 0 ≤ c ∧ a < isize ∧ b < jsize ∧ c < ksize))))) =
      anyCornerNode sel (GridIndex.mk a b c) := by
  rw [Bool.eq_iff_iff]
  simp only [List.any_eq_true, mem_intRange, Bool.and_eq_true, decide_eq_true_eq,
    Grid3d.getVertexGridIndexNeighbours, anyCornerNode, Bool.or_eq_true, List.mem_cons,
    List.mem_singleton, exists_eq_or_imp, GridIndex.mk.injEq, List.not_mem_nil, false_and,
    exists_false, or_false, exists_eq_left]
  constructor
  · rintro ⟨k, _, j, _, i, _, hsel, hn⟩
    rcases hn with hn | hn | hn | hn | hn | hn | hn | hn <;>
      obtain ⟨⟨h1, h2, h3⟩, _⟩ := hn
    · rw [h1, h2, h3] at hsel; simp [hsel]
    · have : i = a + 1 := by omega
      rw [this, h2, h3] at hsel; simp [hsel]
    · have : k = c + 1 := by omega
      rw [this, h2, h1] at hsel; simp [hsel]
    · have hk : k = c + 1 := by omega
      have hi : i = a + 1 := by omega
      rw [hk, hi, h2] at hsel; simp [hsel]
    · have hj : j = b + 1 := by omega
      rw [hj, h1, h3] at hsel; simp [hsel]
    · have hj : j = b + 1 := by omega
      have hi : i = a + 1 := by omega
      rw [hj, hi, h3] at hsel; simp [hsel]
    · have hj : j = b + 1 := by omega
      have hk : k = c + 1 := by omega
      rw [hj, hk, h1] at hsel; simp [hsel]
    · have hj : j = b + 1 := by omega
      have hk : k = c + 1 := by omega
      have hi : i = a + 1 := by omega
      rw [hj, hk, hi] at hsel; simp [hsel]
  · obtain ⟨h1, h2, h3, h4, h5, h6⟩ := hr
    have hr' : 0 ≤ a ∧ 0 ≤ b ∧ 0 ≤ c ∧ a < isize ∧ b < jsize ∧ c < ksize :=
      ⟨h1, h2, h3, h4, h5, h6⟩
    rintro (((((((h | h) | h) | h) | h) | h) | h) | h)
    · exact ⟨c, by omega, b, by omega, a, by omega, h, Or.inl ⟨⟨rfl, rfl, rfl⟩, hr'⟩⟩
    · exact ⟨c, by omega, b, by omega, a + 1, by omega, h,
        Or.inr (Or.inl ⟨⟨by omega, rfl, rfl⟩, hr'⟩)⟩
    · exact ⟨c, by omega, b + 1, by omega, a, by omega, h,
        Or.inr (Or.inr (Or.inr (Or.inr (Or.inl ⟨⟨rfl, by omega, rfl⟩, hr'⟩))))⟩
    · exact ⟨c, by omega, b + 1, by omega, a + 1, by omega, h,
        Or.inr (Or.inr (Or.inr (Or.inr (Or.inr (Or.inl ⟨⟨by omega, by omega, rfl⟩, hr'⟩)))))⟩
    · exact ⟨c + 1, by omega, b, by omega, a, by omega, h,
        Or.inr (Or.inr (Or.inl ⟨⟨rfl, rfl, by omega⟩, hr'⟩))⟩
    · exact ⟨c + 1, by omega, b, by omega, a + 1, by omega, h,
        Or.inr (Or.inr (Or.inr (Or.inl ⟨⟨by omega, rfl, by omega⟩, hr'⟩)))⟩
    · exact ⟨c + 1, by omega, b + 1, by omega, a, by omega, h,
        Or.inr (Or.inr (Or.inr (Or.inr (Or.inr (Or.inr (Or.inl
          ⟨⟨rfl, by omega, by omega⟩, hr'⟩))))))⟩
    · exact ⟨c + 1, by omega, b + 1, by omega, a + 1, by omega, h,
        Or.inr (Or.inr (Or.inr (Or.inr (Or.inr (Or.inr (Or.inr
          ⟨⟨by omega, by omega, by omega⟩, hr'⟩))))))⟩


/-- The cell grid of `getCells` after the node loops: exactly the in-range
cells with a selected corner node are set. -/
theorem dilate_new_get (sel : Int → Int → Int → Bool) (isize jsize ksize : Int) (a b c : Int) :
    ((intRange (ksize + 1)).foldl (fun cellGrid k =>
      (intRange (jsize + 1)).foldl (fun cellGrid j =>
        (intRange (isize + 1)).foldl (fun cellGrid i =>
          if sel i j k then
            (Grid3d.getVertexGridIndexNeighbours i j k).foldl (fun cellGrid (n : GridIndex) =>
              if cellGrid.isIndexInRange n then cellGrid.set n true else cellGrid) cellGrid
          else cellGrid)
          cellGrid) cellGrid) (Array3d.new isize jsize ksize false)).get a b c =
      (decide (0 ≤ a ∧ 0 ≤ b ∧ 0 ≤ c ∧ a < isize ∧ b < jsize ∧ c < ksize) &&
        anyCornerNode sel (GridIndex.mk a b c)) := by
  rw [dilate_get sel _ _ _ isize jsize ksize _ ⟨rfl, rfl, rfl⟩]
  by_cases hr : 0 ≤ a ∧ 0 ≤ b ∧ 0 ≤ c ∧ a < isize ∧ b < jsize ∧ c < ksize
  · rw [any_neighbour_eq_anyCornerNode sel isize jsize ksize a b c hr]
    simp [Array3d.new, hr]
  · simp [Array3d.new, hr]

/-- An appending loop: each iteration appends the selected part of its block. -/
theorem foldl_append_filter {X Y : Type} (G : X → List Y) (p : Y → Bool)
    (step : List Y → X → List Y)
    (h : ∀ cells x, step cells x = cells ++ (G x).filter p) (xs : List X) (cells : List Y) :
    xs.foldl step cells = cells ++ (xs.flatMap G).filter p := by
  induction xs generalizing cells with
  | nil => simp
  | cons x xs ih =>
    simp only [List.foldl_cons, List.flatMap_cons, List.filter_append]
    rw [ih, h, List.append_assoc]

/-- The output loops of `getCells`: the set cells are appended in scan order. -/
theorem scan_eq (cg : Int → Int → Int → Bool) (isize jsize ksize : Int) (cells : List GridIndex) :
    (intRange ksize).foldl (fun cells k =>
      (intRange jsize).foldl (fun cells j =>
        (intRange isize).foldl (fun cells i =>
          if cg i j k then cells ++ [GridIndex.mk i j k] else cells)
          cells) cells) cells =
      cells ++ (cellScan isize jsize ksize).filter (fun c => cg c.i c.j c.k) := by
  unfold cellScan
  refine foldl_append_filter _ _ _ (fun cells k => ?_) _ _
  refine foldl_append_filter _ _ _ (fun cells j => ?_) _ _
  generalize intRange isize = xs
  induction xs generalizing cells with
  | nil => simp
  | cons x xs ih =>
    simp only [List.foldl_cons, List.map_cons, List.filter_cons]
    rw [ih]
    by_cases hx : cg x j k = true
    · simp [hx]
    · simp [hx]

/-- The scan visits exactly the cells of the grid. -/
theorem mem_cellScan (isize jsize ksize : Int) (c : GridIndex) :
    c ∈ cellScan isize jsize ksize ↔
      (0 ≤ c.i ∧ 0 ≤ c.j ∧ 0 ≤ c.k ∧ c.i < isize ∧ c.j < jsize ∧ c.k < ksize) := by
  unfold cellScan
  simp only [List.mem_flatMap, List.mem_map, mem_intRange]
  constructor
  · rintro ⟨k, hk, j, hj, i, hi, rfl⟩
    exact ⟨hi.1, hj.1, hk.1, hi.2, hj.2, hk.2⟩
  · rintro ⟨h1, h2, h3, h4, h5, h6⟩
    exact ⟨c.k, ⟨h3, h6⟩, c.j, ⟨h2, h5⟩, c.i, ⟨h1, h4⟩, rfl⟩

/-- The scan visits no cell twice. -/
theorem nodup_cellScan (isize jsize ksize : Int) : (cellScan isize jsize ksize).Nodup := by
  unfold cellScan
  rw [List.nodup_flatMap]
  constructor
  · intro k _
    rw [List.nodup_flatMap]
    constructor
    · intro j _
      exact (nodup_intRange isize).map (fun a b h => by injection h)
    · refine (nodup_intRange jsize).pairwise_of_forall_ne ?_
      intro j1 _ j2 _ hne
      intro c h1 h2
      simp only [List.mem_map] at h1 h2
      obtain ⟨_, _, rfl⟩ := h1
      obtain ⟨_, _, h⟩ := h2
      injection h with _ h' _
      exact hne h'.symm
  · refine (nodup_intRange ksize).pairwise_of_forall_ne ?_
    intro k1 _ k2 _ hne
    intro c h1 h2
    simp only [List.mem_flatMap, List.mem_map] at h1 h2
    obtain ⟨_, _, _, _, rfl⟩ := h1
    obtain ⟨_, _, _, _, h⟩ := h2
    injection h with _ _ h'
    exact hne h'.symm


/-- The method `_getInversedCells` appends, in scan order, the cells with a corner
node that is not inside the mesh. -/
theorem _getInversedCells_eq (isNodeInsideMesh : TriangleMesh → ℚ → Int → Int → Int → Bool)
    (o : MeshObject) (t : ℚ) (cells : List GridIndex) :
    _getInversedCells isNodeInsideMesh o t cells =
      (getMesh o t).map (fun m =>
        cells ++ (cellScan o._isize o._jsize o._ksize).filter
          (anyCornerNode (fun i j k => !isNodeInsideMesh m o._dx i j k))) := by
  unfold _getInversedCells
  cases getMesh o t with
  | none => rfl
  | some m =>
    simp only [Option.map_some', Option.bind_eq_bind, Option.some_bind, Option.pure_def,
      Option.some.injEq, MeshUtils.getGridNodesInsideTriangleMesh]
    rw [scan_eq]
    congr 1
    apply List.filter_congr
    intro c hc
    rw [mem_cellScan] at hc
    have key := dilate_new_get (fun i j k => !isNodeInsideMesh m o._dx i j k)
      o._isize o._jsize o._ksize c.i c.j c.k
    simp only [Bool.not_eq_true', ← Bool.not_eq_true, ite_not] at key
    simp only [Array3d.new] at key ⊢
    rw [key]
    simp [hc]

/-- The method `getCells`: for an inverted object the cells of `_getInversedCells`
come first; then, inverted or not, the cells with a corner node inside the mesh
are appended in scan order. -/
theorem getCells_eq (isNodeInsideMesh : TriangleMesh → ℚ → Int → Int → Int → Bool)
    (o : MeshObject) (t : ℚ) (cells : List GridIndex) :
    getCells isNodeInsideMesh o t cells =
      (getMesh o t).map (fun m =>
        (if o._isInversed then
          cells ++ (cellScan o._isize o._jsize o._ksize).filter
            (anyCornerNode (fun i j k => !isNodeInsideMesh m o._dx i j k))
         else cells) ++
        (cellScan o._isize o._jsize o._ksize).filter
          (anyCornerNode (isNodeInsideMesh m o._dx))) := by
  unfold getCells
  rw [_getInversedCells_eq]
  cases getMesh o t with
  | none => cases o._isInversed <;> rfl
  | some m =>
    cases o._isInversed <;>
    · simp only [Bool.false_eq_true, if_false, if_true, Option.map_some', Option.bind_eq_bind,
        Option.some_bind, Option.pure_def, Option.some.injEq,
        MeshUtils.getGridNodesInsideTriangleMesh]
      rw [scan_eq]
      congr 1
      apply List.filter_congr
      intro c hc
      rw [mem_cellScan] at hc
      have key := dilate_new_get (isNodeInsideMesh m o._dx)
        o._isize o._jsize o._ksize c.i c.j c.k
      simp only [Array3d.new] at key ⊢
      simp only [Bool.not_eq_true', ← Bool.not_eq_true, ite_not]
      rw [key]
      simp [hc]

/-- A filtering loop over two parallel vectors: the pairs whose first component
passes the test are appended, in order. -/
theorem foldlM_cull {A B : Type} (keep : A → Bool) (xs : List A) (ys : List B)
    (hlen : xs.length = ys.length) (n : Nat) (hn : n ≤ xs.length) (out : List A × List B) :
    (List.range n).foldlM
      (fun (out : List A × List B) i => do
        let a ← xs[i]?
        if keep a then
          let b ← ys[i]?
          pure (out.1 ++ [a], out.2 ++ [b])
        else
          pure out) out =
      some (out.1 ++ (((xs.zip ys).take n).filter (fun p => keep p.1)).map Prod.fst,
        out.2 ++ (((xs.zip ys).take n).filter (fun p => keep p.1)).map Prod.snd) := by
  induction n with
  | zero => simp
  | succ n ih =>
    have hx : n < xs.length := by omega
    have hy : n < ys.length := by omega
    have hz : n < (xs.zip ys).length := by simp; omega
    rw [List.range_succ, List.foldlM_append, ih (by omega)]
    rw [List.take_succ, List.getElem?_eq_getElem hz]
    simp only [Option.bind_eq_bind, Option.some_bind, List.foldlM_cons, List.foldlM_nil,
      List.getElem?_eq_getElem hx, List.getElem?_eq_getElem hy, List.getElem_zip,
      Option.toList_some, List.filter_append, List.map_append, Option.pure_def]
    by_cases hk : keep xs[n] = true
    · simp [hk]
    · simp [hk]


/-- The two tests of the cull in `_getMeshIslands` together are the cull
criterion `islandIsKept`. -/
theorem cull_test_eq (levelset : MeshLevelSet) (island : TriangleMesh) :
    (((domainBox levelset).isPointInside (AABB.ofPoints island.vertices).getMinPoint &&
        (domainBox levelset).isPointInside (AABB.ofPoints island.vertices).getMaxPoint) ||
      decide
        (((domainBox levelset).getIntersection (AABB.ofPoints island.vertices)).width > 0 ∨
         ((domainBox levelset).getIntersection (AABB.ofPoints island.vertices)).height > 0 ∨
         ((domainBox levelset).getIntersection (AABB.ofPoints island.vertices)).depth > 0)) =
      islandIsKept levelset island := by
  unfold islandIsKept
  rw [Bool.eq_iff_iff]
  simp only [AABB.isPointInside, AABB.getMinPoint, AABB.getMaxPoint, Vec3.add_def, zero_add,
    Bool.or_eq_true, Bool.and_eq_true, decide_eq_true_eq, gt_iff_lt, domainBox]

/-- Two branches with the same effect are one branch on the disjunction. -/
theorem ite_or_decide {α : Type} (b : Bool) (P : Prop) [Decidable P] (x y : α) :
    (if b = true then x else if P then x else y) =
      if (b || decide P) = true then x else y := by
  cases b <;> by_cases hP : P <;> simp [hP]

/-- The method `_getMeshIslands` as a filter: with island and velocity lists of
equal length from the split, the retained pairs are appended in split order. -/
theorem _getMeshIslands_eq
    (splitIntoMeshIslands : TriangleMesh → List Vec3 → List TriangleMesh × List (List Vec3))
    (m : TriangleMesh) (vertexVelocities : List Vec3) (levelset : MeshLevelSet)
    (islands : List TriangleMesh) (islandVertexVelocities : List (List Vec3))
    (hsplit : (splitIntoMeshIslands m vertexVelocities).1.length =
      (splitIntoMeshIslands m vertexVelocities).2.length) :
    _getMeshIslands splitIntoMeshIslands m vertexVelocities levelset islands
        islandVertexVelocities =
      some
        (islands ++
          ((((splitIntoMeshIslands m vertexVelocities).1.zip
            (splitIntoMeshIslands m vertexVelocities).2).filter
              (fun p => islandIsKept levelset p.1)).map Prod.fst),
         islandVertexVelocities ++
          ((((splitIntoMeshIslands m vertexVelocities).1.zip
            (splitIntoMeshIslands m vertexVelocities).2).filter
              (fun p => islandIsKept levelset p.1)).map Prod.snd)) := by
  unfold _getMeshIslands
  have h := foldlM_cull (islandIsKept levelset) (splitIntoMeshIslands m vertexVelocities).1
    (splitIntoMeshIslands m vertexVelocities).2 hsplit _ le_rfl (islands, islandVertexVelocities)
  have htake : ((splitIntoMeshIslands m vertexVelocities).1.zip
      (splitIntoMeshIslands m vertexVelocities).2).take
        (splitIntoMeshIslands m vertexVelocities).1.length =
      (splitIntoMeshIslands m vertexVelocities).1.zip
        (splitIntoMeshIslands m vertexVelocities).2 := by
    apply List.take_of_length_le
    simp [hsplit]
  rw [htake] at h
  rw [← h]
  dsimp only
  congr 1
  funext out i
  cases (splitIntoMeshIslands m vertexVelocities).1[i]? with
  | none => rfl
  | some island =>
    have hc := cull_test_eq levelset island
    simp only [domainBox] at hc
    simp only [Option.bind_eq_bind, Option.some_bind]
    rw [← hc]
    exact ite_or_decide _ _ _ _


/-- An island whose bounding box is separated from the domain box along an axis
does not pass the cull. -/
theorem islandIsKept_of_outside (levelset : MeshLevelSet) (island : TriangleMesh)
    (h : islandIsOutside levelset island) : islandIsKept levelset island = false := by
  unfold islandIsOutside at h
  simp only [AABB.getMinPoint, AABB.getMaxPoint, Vec3.add_def] at h
  unfold islandIsKept
  have hinter : (domainBox levelset).getIntersection (AABB.ofPoints island.vertices) =
      AABB.empty := by
    unfold AABB.getIntersection
    simp only [domainBox, AABB.getMinPoint, AABB.getMaxPoint, Vec3.add_def, zero_add, gt_iff_lt]
    rw [if_pos h]
  simp only [hinter, AABB.empty, lt_self_iff_false, or_self, or_false, decide_eq_false_iff_not,
    AABB.getMinPoint, AABB.getMaxPoint, Vec3.add_def]
  rintro ⟨⟨_, _, _, h4, h5, h6⟩, g1, g2, g3, _, _, _⟩
  rcases h with h | h | h | h | h | h <;> linarith

/-- C9: with island and velocity lists of equal length from the split,
`_getMeshIslands` appends to its two output lists exactly the sub-sequence, in
split order, of the (island, velocity subset) pairs whose island passes the cull
criterion `islandIsKept` (min and max point of the bounding box inside the domain
box, or an intersection with the domain box of positive width, height or depth);
the appended island and velocity lists have equal length and pair up as in the
split; an island whose bounding box has zero overlap with the domain box
(`islandIsOutside`) is not among them. -/
theorem _getMeshIslands_cull
    (splitIntoMeshIslands : TriangleMesh → List Vec3 → List TriangleMesh × List (List Vec3))
    (m : TriangleMesh) (vertexVelocities : List Vec3) (levelset : MeshLevelSet)
    (islands : List TriangleMesh) (islandVertexVelocities : List (List Vec3))
    (hsplit : (splitIntoMeshIslands m vertexVelocities).1.length =
      (splitIntoMeshIslands m vertexVelocities).2.length) :
    ∃ kept : List (TriangleMesh × List Vec3),
      kept = ((splitIntoMeshIslands m vertexVelocities).1.zip
        (splitIntoMeshIslands m vertexVelocities).2).filter
          (fun p => islandIsKept levelset p.1) ∧
      kept.Sublist ((splitIntoMeshIslands m vertexVelocities).1.zip
        (splitIntoMeshIslands m vertexVelocities).2) ∧
      _getMeshIslands splitIntoMeshIslands m vertexVelocities levelset islands
          islandVertexVelocities =
        some (islands ++ kept.map Prod.fst, islandVertexVelocities ++ kept.map Prod.snd) ∧
      (kept.map Prod.fst).length = (kept.map Prod.snd).length ∧
      (kept.map Prod.fst).zip (kept.map Prod.snd) = kept ∧
      (∀ p ∈ kept, islandIsKept levelset p.1 = true) ∧
      (∀ p ∈ (splitIntoMeshIslands m vertexVelocities).1.zip
          (splitIntoMeshIslands m vertexVelocities).2,
        islandIsKept levelset p.1 = true → p ∈ kept) ∧
      (∀ p ∈ (splitIntoMeshIslands m vertexVelocities).1.zip
          (splitIntoMeshIslands m vertexVelocities).2,
        islandIsOutside levelset p.1 → p ∉ kept) := by
  refine ⟨_, rfl, List.filter_sublist _, _getMeshIslands_eq _ _ _ _ _ _ hsplit, by simp, ?_,
    ?_, ?_, ?_⟩
  · exact (List.zip_of_prod rfl rfl).symm
  · intro p hp
    exact (List.mem_filter.1 hp).2
  · intro p hp hk
    exact List.mem_filter.2 ⟨hp, hk⟩
  · intro p _ hout hmem
    have h1 := (List.mem_filter.1 hmem).2
    rw [islandIsKept_of_outside levelset p.1 hout] at h1
    cases h1


/-- Witness for C9: a triangle inside the `10 x 10 x 10` domain, split into itself. -/
theorem _getMeshIslands_cull_witness :
    (sampleSplit (sampleTriangle ⟨1, 1, 1⟩) [0, 0, 0]).1.length =
      (sampleSplit (sampleTriangle ⟨1, 1, 1⟩) [0, 0, 0]).2.length ∧
    ∃ kept : List (TriangleMesh × List Vec3),
      kept = ((sampleSplit (sampleTriangle ⟨1, 1, 1⟩) [0, 0, 0]).1.zip
        (sampleSplit (sampleTriangle ⟨1, 1, 1⟩) [0, 0, 0]).2).filter
          (fun p => islandIsKept sampleDomain p.1) ∧
      _getMeshIslands sampleSplit (sampleTriangle ⟨1, 1, 1⟩) [0, 0, 0] sampleDomain [] [] =
        some ([] ++ kept.map Prod.fst, [] ++ kept.map Prod.snd) :=
  ⟨rfl, (_getMeshIslands_cull sampleSplit (sampleTriangle ⟨1, 1, 1⟩) [0, 0, 0] sampleDomain
    [] [] rfl).imp (fun _ h => ⟨h.1, h.2.2.1⟩)⟩

/-! ## Claims on the occupancy query -/

/-- A corner node of the cell `c` is a node `c + (di, dj, dk)` with offsets 0 or 1. -/
theorem anyCornerNode_iff (node : Int → Int → Int → Bool) (c : GridIndex) :
    anyCornerNode node c = true ↔
      ∃ di dj dk : Int, (di = 0 ∨ di = 1) ∧ (dj = 0 ∨ dj = 1) ∧ (dk = 0 ∨ dk = 1) ∧
        node (c.i + di) (c.j + dj) (c.k + dk) = true := by
  unfold anyCornerNode
  simp only [Bool.or_eq_true]
  constructor
  · rintro (((((((h | h) | h) | h) | h) | h) | h) | h)
    · exact ⟨0, 0, 0, by simp, by simp, by simp, by simpa using h⟩
    · exact ⟨1, 0, 0, by simp, by simp, by simp, by simpa using h⟩
    · exact ⟨0, 1, 0, by simp, by simp, by simp, by simpa using h⟩
    · exact ⟨1, 1, 0, by simp, by simp, by simp, by simpa using h⟩
    · exact ⟨0, 0, 1, by simp, by simp, by simp, by simpa using h⟩
    · exact ⟨1, 0, 1, by simp, by simp, by simp, by simpa using h⟩
    · exact ⟨0, 1, 1, by simp, by simp, by simp, by simpa using h⟩
    · exact ⟨1, 1, 1, by simp, by simp, by simp, by simpa using h⟩
  · rintro ⟨di, dj, dk, hi | hi, hj | hj, hk | hk, h⟩ <;> subst hi <;> subst hj <;> subst hk <;>
      (try simp only [add_zero] at h) <;> simp [h]

/-- C1: for a non-inverted object and an empty output list, `getCells(t)` returns
(whenever `getMesh(t)` returns a mesh `m`) the cells of the scan
`for k, for j, for i` that have a corner node marked inside by the point-in-mesh
test on `m`: a cell is in the result iff it is a cell of the
`isize x jsize x ksize` grid and one of its 8 corner nodes is inside, and no cell
appears twice. -/
theorem getCells_not_inversed
    (isNodeInsideMesh : TriangleMesh → ℚ → Int → Int → Int → Bool)
    (o : MeshObject) (t : ℚ) (hinv : o._isInversed = false) :
    getCells isNodeInsideMesh o t [] =
      (getMesh o t).map (fun m =>
        (cellScan o._isize o._jsize o._ksize).filter
          (anyCornerNode (isNodeInsideMesh m o._dx))) ∧
    ∀ m, getMesh o t = some m →
      ∃ cells, getCells isNodeInsideMesh o t [] = some cells ∧
        (∀ c : GridIndex, c ∈ cells ↔
          (0 ≤ c.i ∧ 0 ≤ c.j ∧ 0 ≤ c.k ∧ c.i < o._isize ∧ c.j < o._jsize ∧ c.k < o._ksize) ∧
          ∃ di dj dk : Int, (di = 0 ∨ di = 1) ∧ (dj = 0 ∨ dj = 1) ∧ (dk = 0 ∨ dk = 1) ∧
            isNodeInsideMesh m o._dx (c.i + di) (c.j + dj) (c.k + dk) = true) ∧
        cells.Nodup ∧
        cells.Sublist (cellScan o._isize o._jsize o._ksize) := by
  have heq : getCells isNodeInsideMesh o t [] =
      (getMesh o t).map (fun m =>
        (cellScan o._isize o._jsize o._ksize).filter
          (anyCornerNode (isNodeInsideMesh m o._dx))) := by
    rw [getCells_eq, hinv]
    simp
  refine ⟨heq, fun m hm => ⟨_, by rw [heq, hm]; rfl, fun c => ?_, ?_, List.filter_sublist _⟩⟩
  · rw [List.mem_filter, mem_cellScan, anyCornerNode_iff]
  · exact (nodup_cellScan _ _ _).filter _

/-- Witness for C1: a static tetrahedron around node `(1, 1, 1)` of a `2 x 2 x 2`
grid. -/
theorem getCells_not_inversed_witness :
    (updateMeshStatic (sampleObject 2 2 2 1) sampleTetrahedron)._isInversed = false ∧
    getCells sampleNodeTest (updateMeshStatic (sampleObject 2 2 2 1) sampleTetrahedron) 0 [] =
      (getMesh (updateMeshStatic (sampleObject 2 2 2 1) sampleTetrahedron) 0).map (fun m =>
        (cellScan 2 2 2).filter (anyCornerNode (sampleNodeTest m 1))) :=
  ⟨rfl, (getCells_not_inversed sampleNodeTest
    (updateMeshStatic (sampleObject 2 2 2 1) sampleTetrahedron) 0 rfl).1⟩

/-- C2 (the code at a failing input): an inverted static object on a `1 x 1 x 1`
grid whose mesh contains the node `(1, 1, 1)` only. The cell `(0, 0, 0)` is
returned twice: once by `_getInversedCells` and once more by the code of
`getCells` that follows the call. -/
theorem getCells_inversed_duplicate :
    getCells sampleNodeTest
        (inverse (updateMeshStatic (sampleObject 1 1 1 1) sampleTetrahedron)) 0 [] =
      some [⟨0, 0, 0⟩, ⟨0, 0, 0⟩] := by
  rw [getCells_eq, getMesh_at_zero _ rfl (le_refl _)]
  decide

/-! ## Claims on the island sub-grid -/

/-- The sub-grid of `_getMeshIslandLevelSet`: the level set handed to the distance
computation has offset `gmin` and dimensions `gmax - gmin`, with `gmin` the island's
minimum grid index minus `exactBand`, clamped below by 0, and `gmax` the island's
maximum grid index plus `exactBand + 1`, clamped above by the domain size minus 1. -/
theorem _getMeshIslandLevelSet_eq
    (fastCalculateSignedDistanceField :
      MeshLevelSet → TriangleMesh → List Vec3 → Int → MeshLevelSet)
    (m : TriangleMesh) (velocities : List Vec3) (domainLevelSet : MeshLevelSet)
    (exactBand : Int) :
    _getMeshIslandLevelSet fastCalculateSignedDistanceField m velocities domainLevelSet
        exactBand =
      fastCalculateSignedDistanceField
        { isize :=
            min ((Grid3d.positionToGridIndex (AABB.ofPoints m.vertices).getMaxPoint
              domainLevelSet.dx).i + exactBand + 1) (domainLevelSet.isize - 1) -
            max ((Grid3d.positionToGridIndex (AABB.ofPoints m.vertices).getMinPoint
              domainLevelSet.dx).i - exactBand) 0,
          jsize :=
            min ((Grid3d.positionToGridIndex (AABB.ofPoints m.vertices).getMaxPoint
              domainLevelSet.dx).j + exactBand + 1) (domainLevelSet.jsize - 1) -
            max ((Grid3d.positionToGridIndex (AABB.ofPoints m.vertices).getMinPoint
              domainLevelSet.dx).j - exactBand) 0,
          ksize :=
            min ((Grid3d.positionToGridIndex (AABB.ofPoints m.vertices).getMaxPoint
              domainLevelSet.dx).k + exactBand + 1) (domainLevelSet.ksize - 1) -
            max ((Grid3d.positionToGridIndex (AABB.ofPoints m.vertices).getMinPoint
              domainLevelSet.dx).k - exactBand) 0,
          dx := domainLevelSet.dx,
          gridOffset :=
            ⟨max ((Grid3d.positionToGridIndex (AABB.ofPoints m.vertices).getMinPoint
                domainLevelSet.dx).i - exactBand) 0,
              max ((Grid3d.positionToGridIndex (AABB.ofPoints m.vertices).getMinPoint
                domainLevelSet.dx).j - exactBand) 0,
              max ((Grid3d.positionToGridIndex (AABB.ofPoints m.vertices).getMinPoint
                domainLevelSet.dx).k - exactBand) 0⟩,
          isMultiThreadingEnabled := true }
        m velocities exactBand := rfl

/-- What the clamping of `_getMeshIslandLevelSet` ensures for every island: the
sub-grid offset is non-negative and offset plus dimension is at most the domain
size minus 1 on every axis. (That the dimension is non-negative is not ensured.) -/
theorem _getMeshIslandLevelSet_bounds
    (fastCalculateSignedDistanceField :
      MeshLevelSet → TriangleMesh → List Vec3 → Int → MeshLevelSet)
    (m : TriangleMesh) (velocities : List Vec3) (domainLevelSet : MeshLevelSet)
    (exactBand : Int) :
    ∃ islandLevelSet : MeshLevelSet,
      _getMeshIslandLevelSet fastCalculateSignedDistanceField m velocities domainLevelSet
          exactBand =
        fastCalculateSignedDistanceField islandLevelSet m velocities exactBand ∧
      0 ≤ islandLevelSet.gridOffset.i ∧ 0 ≤ islandLevelSet.gridOffset.j ∧
      0 ≤ islandLevelSet.gridOffset.k ∧
      islandLevelSet.gridOffset.i + islandLevelSet.isize ≤ domainLevelSet.isize - 1 ∧
      islandLevelSet.gridOffset.j + islandLevelSet.jsize ≤ domainLevelSet.jsize - 1 ∧
      islandLevelSet.gridOffset.k + islandLevelSet.ksize ≤ domainLevelSet.ksize - 1 := by
  refine ⟨_, _getMeshIslandLevelSet_eq _ _ _ _ _, ?_, ?_, ?_, ?_, ?_, ?_⟩
  · exact le_max_right _ _
  · exact le_max_right _ _
  · exact le_max_right _ _
  · simp only [add_sub_cancel]
    exact min_le_right _ _
  · simp only [add_sub_cancel]
    exact min_le_right _ _
  · simp only [add_sub_cancel]
    exact min_le_right _ _

/-- C10 (the code at a failing input): a `10 x 10 x 10` domain of cell size 1,
`exactBand = 0` and a triangle that lies in the domain face `x = 10`. The cull
retains the island (the min and the max point of its bounding box lie inside the
domain box), and its sub-grid has offset 10 and dimension -1 along x. -/
theorem _getMeshIslandLevelSet_negative_width :
    _getMeshIslands sampleSplit boundaryIsland [0, 0, 0] sampleDomain [] [] =
      some ([boundaryIsland], [[0, 0, 0]]) ∧
    (_getMeshIslandLevelSet sampleDistanceField boundaryIsland [0, 0, 0]
      sampleDomain 0).gridOffset = ⟨10, 2, 2⟩ ∧
    (_getMeshIslandLevelSet sampleDistanceField boundaryIsland [0, 0, 0]
      sampleDomain 0).isize = -1 := by
  refine ⟨?_, ?_, ?_⟩
  · rw [_getMeshIslands_eq _ _ _ _ _ _ rfl]
    have hk : islandIsKept sampleDomain boundaryIsland = true := by
      norm_num [islandIsKept, domainBox, sampleDomain, boundaryIsland, MeshLevelSet.new,
        AABB.ofPoints, AABB.getMinPoint, AABB.getMaxPoint, AABB.getIntersection, Vec3.add_def]
    simp [sampleSplit, hk]
  · norm_num [_getMeshIslandLevelSet, boundaryIsland, sampleDomain, sampleDistanceField,
      MeshLevelSet.new, MeshLevelSet.setGridOffset, AABB.ofPoints, AABB.getMinPoint,
      AABB.getMaxPoint, Grid3d.positionToGridIndex, Vec3.add_def]
  · norm_num [_getMeshIslandLevelSet, boundaryIsland, sampleDomain, sampleDistanceField,
      MeshLevelSet.new, MeshLevelSet.setGridOffset, AABB.ofPoints, AABB.getMinPoint,
      AABB.getMaxPoint, Grid3d.positionToGridIndex, Vec3.add_def]


/-! ## Claims on the scalar setters -/

/-- C15: the scalar setters clamp instead of failing. After `setFriction(f)` the
friction is `min(max(f, 0), 1)`, which lies in [0,1] and is `f` itself when `f` is
in [0,1]; after `setWhitewaterInfluence(v)` and `setSheetingStrength(v)` the value
is `max(v, 0)`; each setter changes its own field only. -/
theorem setters_clamp (o : MeshObject) (f v : ℚ) :
    getFriction (setFriction o f) = min (max f 0) 1 ∧
    0 ≤ getFriction (setFriction o f) ∧ getFriction (setFriction o f) ≤ 1 ∧
    (0 ≤ f → f ≤ 1 → getFriction (setFriction o f) = f) ∧
    getWhitewaterInfluence (setWhitewaterInfluence o v) = max v 0 ∧
    getSheetingStrength (setSheetingStrength o v) = max v 0 ∧
    setFriction o f = { o with _friction := min (max f 0) 1 } ∧
    setWhitewaterInfluence o v = { o with _whitewaterInfluence := max v 0 } ∧
    setSheetingStrength o v = { o with _sheetingStrength := max v 0 } := by
  have hswap : max (min f 1) 0 = min (max f 0) 1 := by
    rcases le_total f 0 with h0 | h0
    · have h1 : f ≤ 1 := by linarith
      simp [h0, h1]
    · rcases le_total f 1 with h1 | h1
      · simp [h0, h1]
      · have h2 : (0 : ℚ) ≤ 1 := by norm_num
        simp [h0, h1, h2]
  have hval : getFriction (setFriction o f) = min (max f 0) 1 := by
    show max (min f 1) 0 = min (max f 0) 1
    exact hswap
  refine ⟨hval, ?_, ?_, ?_, rfl, rfl, ?_, rfl, rfl⟩
  · rw [hval]
    exact le_min (le_max_right _ _) (by norm_num)
  · rw [hval]
    exact min_le_right _ _
  · intro h0 h1
    rw [hval, max_eq_left h0, min_eq_left h1]
  · show { o with _friction := max (min f 1) 0 } = _
    rw [hswap]

/-- Witness for C15: the friction 1/2 is kept, the friction 3 is clamped to 1. -/
theorem setters_clamp_witness :
    (0 : ℚ) ≤ 1 / 2 ∧ (1 / 2 : ℚ) ≤ 1 ∧
    getFriction (setFriction (sampleObject 10 10 10 1) (1 / 2)) = 1 / 2 :=
  ⟨by norm_num, by norm_num,
    (setters_clamp (sampleObject 10 10 10 1) (1 / 2) 0).2.2.2.1 (by norm_num) (by norm_num)⟩

/-! ## Claims on the island expansion -/

/-- C11: with `meshExpansion = 0`, `_expandMeshIslands` returns the list of islands
as it is: every vertex of every island, the triangles and the number of islands
are unchanged. -/
theorem _expandMeshIslands_zero (sqrt : ℚ → ℚ) (o : MeshObject) (islands : List TriangleMesh)
    (h : o._meshExpansion = 0) : _expandMeshIslands sqrt o islands = islands := by
  unfold _expandMeshIslands
  simp [h]

/-- Witness for C11: the sample object has `meshExpansion = 0`. -/
theorem _expandMeshIslands_zero_witness :
    (sampleObject 10 10 10 1)._meshExpansion = 0 ∧
    _expandMeshIslands sampleSqrt (sampleObject 10 10 10 1)
        [sampleTriangle ⟨1, 1, 1⟩, sampleTetrahedron] =
      [sampleTriangle ⟨1, 1, 1⟩, sampleTetrahedron] :=
  ⟨rfl, _expandMeshIslands_zero sampleSqrt (sampleObject 10 10 10 1) _ rfl⟩

/-! ## Claims on the per-island level sets -/

/-- C17 (amended): in `_getMeshIslandLevelSet` the island's grid-index bounding box
is padded by `exactBand` cells on the min side and by `exactBand + 1` cells on the
max side and then clamped to the domain grid: min index
`max(indexOf(aabbMin) - exactBand, 0)` and max index
`min(indexOf(aabbMax) + exactBand + 1, size - 1)` on each axis; the sub-grid handed
to the distance computation has the min index as offset and max index minus min
index as dimensions. -/
theorem _getMeshIslandLevelSet_padding
    (fastCalculateSignedDistanceField :
      MeshLevelSet → TriangleMesh → List Vec3 → Int → MeshLevelSet)
    (m : TriangleMesh) (velocities : List Vec3) (domainLevelSet : MeshLevelSet)
    (exactBand : Int) :
    ∃ (gmin gmax : GridIndex) (islandLevelSet : MeshLevelSet),
      gmin.i = max ((Grid3d.positionToGridIndex (AABB.ofPoints m.vertices).getMinPoint
        domainLevelSet.dx).i - exactBand) 0 ∧
      gmin.j = max ((Grid3d.positionToGridIndex (AABB.ofPoints m.vertices).getMinPoint
        domainLevelSet.dx).j - exactBand) 0 ∧
      gmin.k = max ((Grid3d.positionToGridIndex (AABB.ofPoints m.vertices).getMinPoint
        domainLevelSet.dx).k - exactBand) 0 ∧
      gmax.i = min ((Grid3d.positionToGridIndex (AABB.ofPoints m.vertices).getMaxPoint
        domainLevelSet.dx).i + exactBand + 1) (domainLevelSet.isize - 1) ∧
      gmax.j = min ((Grid3d.positionToGridIndex (AABB.ofPoints m.vertices).getMaxPoint
        domainLevelSet.dx).j + exactBand + 1) (domainLevelSet.jsize - 1) ∧
      gmax.k = min ((Grid3d.positionToGridIndex (AABB.ofPoints m.vertices).getMaxPoint
        domainLevelSet.dx).k + exactBand + 1) (domainLevelSet.ksize - 1) ∧
      islandLevelSet.gridOffset = gmin ∧
      islandLevelSet.isize = gmax.i - gmin.i ∧
      islandLevelSet.jsize = gmax.j - gmin.j ∧
      islandLevelSet.ksize = gmax.k - gmin.k ∧
      islandLevelSet.dx = domainLevelSet.dx ∧
      _getMeshIslandLevelSet fastCalculateSignedDistanceField m velocities domainLevelSet
          exactBand =
        fastCalculateSignedDistanceField islandLevelSet m velocities exactBand :=
  ⟨⟨max ((Grid3d.positionToGridIndex (AABB.ofPoints m.vertices).getMinPoint domainLevelSet.dx).i - exactBand) 0,
      max ((Grid3d.positionToGridIndex (AABB.ofPoints m.vertices).getMinPoint domainLevelSet.dx).j - exactBand) 0,
      max ((Grid3d.positionToGridIndex (AABB.ofPoints m.vertices).getMinPoint domainLevelSet.dx).k - exactBand) 0⟩,
    ⟨min ((Grid3d.positionToGridIndex (AABB.ofPoints m.vertices).getMaxPoint domainLevelSet.dx).i + exactBand + 1) (domainLevelSet.isize - 1),
      min ((Grid3d.positionToGridIndex (AABB.ofPoints m.vertices).getMaxPoint domainLevelSet.dx).j + exactBand + 1) (domainLevelSet.jsize - 1),
      min ((Grid3d.positionToGridIndex (AABB.ofPoints m.vertices).getMaxPoint domainLevelSet.dx).k + exactBand + 1) (domainLevelSet.ksize - 1)⟩,
    { isize := min ((Grid3d.positionToGridIndex (AABB.ofPoints m.vertices).getMaxPoint domainLevelSet.dx).i + exactBand + 1) (domainLevelSet.isize - 1) -
        max ((Grid3d.positionToGridIndex (AABB.ofPoints m.vertices).getMinPoint domainLevelSet.dx).i - exactBand) 0,
      jsize := min ((Grid3d.positionToGridIndex (AABB.ofPoints m.vertices).getMaxPoint domainLevelSet.dx).j + exactBand + 1) (domainLevelSet.jsize - 1) -
        max ((Grid3d.positionToGridIndex (AABB.ofPoints m.vertices).getMinPoint domainLevelSet.dx).j - exactBand) 0,
      ksize := min ((Grid3d.positionToGridIndex (AABB.ofPoints m.vertices).getMaxPoint domainLevelSet.dx).k + exactBand + 1) (domainLevelSet.ksize - 1) -
        max ((Grid3d.positionToGridIndex (AABB.ofPoints m.vertices).getMinPoint domainLevelSet.dx).k - exactBand) 0,
      dx := domainLevelSet.dx,
      gridOffset := ⟨max ((Grid3d.positionToGridIndex (AABB.ofPoints m.vertices).getMinPoint domainLevelSet.dx).i - exactBand) 0,
        max ((Grid3d.positionToGridIndex (AABB.ofPoints m.vertices).getMinPoint domainLevelSet.dx).j - exactBand) 0,
        max ((Grid3d.positionToGridIndex (AABB.ofPoints m.vertices).getMinPoint domainLevelSet.dx).k - exactBand) 0⟩,
      isMultiThreadingEnabled := true },
    rfl, rfl, rfl, rfl, rfl, rfl, rfl, rfl, rfl, rfl, rfl, rfl⟩

/-- C17 (counterexample): a triangle with minimum corner `(5, 5, 5)` in the
`10 x 10 x 10` domain of cell size 1 and `exactBand = 1`. The sub-grid offset is
`(4, 4, 4)`, the minimum index minus `exactBand`; the minimum index minus
`exactBand + 1` would be 3. -/
theorem _getMeshIslandLevelSet_min_padding :
    (_getMeshIslandLevelSet sampleDistanceField (sampleTriangle ⟨5, 5, 5⟩) [0, 0, 0]
      sampleDomain 1).gridOffset = ⟨4, 4, 4⟩ ∧
    max ((Grid3d.positionToGridIndex
      (AABB.ofPoints (sampleTriangle ⟨5, 5, 5⟩).vertices).getMinPoint sampleDomain.dx).i -
        (1 + 1)) 0 = 3 ∧
    (_getMeshIslandLevelSet sampleDistanceField (sampleTriangle ⟨5, 5, 5⟩) [0, 0, 0]
      sampleDomain 1).gridOffset.i ≠
      max ((Grid3d.positionToGridIndex
        (AABB.ofPoints (sampleTriangle ⟨5, 5, 5⟩).vertices).getMinPoint sampleDomain.dx).i -
          (1 + 1)) 0 := by
  have h1 : (_getMeshIslandLevelSet sampleDistanceField (sampleTriangle ⟨5, 5, 5⟩) [0, 0, 0]
      sampleDomain 1).gridOffset = ⟨4, 4, 4⟩ := by
    norm_num [_getMeshIslandLevelSet, sampleTriangle, sampleDomain, sampleDistanceField,
      MeshLevelSet.new, MeshLevelSet.setGridOffset, AABB.ofPoints, AABB.getMinPoint,
      AABB.getMaxPoint, Grid3d.positionToGridIndex, Vec3.add_def]
  have h2 : max ((Grid3d.positionToGridIndex
      (AABB.ofPoints (sampleTriangle ⟨5, 5, 5⟩).vertices).getMinPoint sampleDomain.dx).i -
        (1 + 1)) 0 = 3 := by
    norm_num [sampleTriangle, sampleDomain, MeshLevelSet.new, AABB.ofPoints, AABB.getMinPoint,
      Grid3d.positionToGridIndex, Vec3.add_def]
  refine ⟨h1, h2, ?_⟩
  rw [h1, h2]
  decide

/-- C18: for every work item the worker thread hands the distance computation the
same mesh, velocities and band width as the serial helper `_getMeshIslandLevelSet`,
on a level set with the same offset, dimensions and cell size; the only
difference is that the worker's level set has its multithreading disabled. -/
theorem _islandMeshLevelSetProducerThread_item_refines
    (fastCalculateSignedDistanceField :
      MeshLevelSet → TriangleMesh → List Vec3 → Int → MeshLevelSet)
    (w : MeshIslandWorkItem) (domainLevelSet : MeshLevelSet) (exactBand : Int) :
    ∃ islandLevelSet : MeshLevelSet,
      _getMeshIslandLevelSet fastCalculateSignedDistanceField w.mesh w.vertexVelocities
          domainLevelSet exactBand =
        fastCalculateSignedDistanceField islandLevelSet w.mesh w.vertexVelocities exactBand ∧
      _islandMeshLevelSetProducerThread_item fastCalculateSignedDistanceField w
          domainLevelSet exactBand =
        fastCalculateSignedDistanceField islandLevelSet.disableMultiThreading w.mesh
          w.vertexVelocities exactBand ∧
      islandLevelSet.disableMultiThreading =
        { islandLevelSet with isMultiThreadingEnabled := false } ∧
      islandLevelSet.isMultiThreadingEnabled = true ∧
      islandLevelSet.disableMultiThreading.gridOffset = islandLevelSet.gridOffset ∧
      islandLevelSet.disableMultiThreading.isize = islandLevelSet.isize ∧
      islandLevelSet.disableMultiThreading.jsize = islandLevelSet.jsize ∧
      islandLevelSet.disableMultiThreading.ksize = islandLevelSet.ksize ∧
      islandLevelSet.disableMultiThreading.dx = islandLevelSet.dx :=
  ⟨_, _getMeshIslandLevelSet_eq _ _ _ _ _, rfl, rfl, rfl, rfl, rfl, rfl, rfl, rfl⟩

/-! ## Claims on the rigid body velocity estimate -/

/-- C14: for a static object or one whose topology is changing,
`getRigidBodyVelocity(dt)` returns for every `dt` the centroid of the current mesh,
axis `(1, 0, 0)`, linear velocity 0 and angular speed 0, whatever the next
keyframe is. -/
theorem getRigidBodyVelocity_static (sqrt acos : ℚ → ℚ) (o : MeshObject) (dt : ℚ)
    (h : o._isAnimated = false ∨ o._isChangingTopology = true) :
    getRigidBodyVelocity sqrt acos o dt =
      some { centroid := o._meshCurrent.getCentroid, linear := 0, axis := ⟨1, 0, 0⟩,
             angular := 0 } ∧
    ∀ next : TriangleMesh, getRigidBodyVelocity sqrt acos { o with _meshNext := next } dt =
      some { centroid := o._meshCurrent.getCentroid, linear := 0, axis := ⟨1, 0, 0⟩,
             angular := 0 } := by
  have hc : (!o._isAnimated || o._isChangingTopology) = true := by
    rcases h with h | h <;> simp [h]
  constructor
  · unfold getRigidBodyVelocity
    simp only [hc, if_true]
    rfl
  · intro next
    unfold getRigidBodyVelocity
    simp only [hc, if_true]
    rfl

/-- Witness for C14: the sample object is static. -/
theorem getRigidBodyVelocity_static_witness :
    ((sampleObject 10 10 10 1)._isAnimated = false ∨
      (sampleObject 10 10 10 1)._isChangingTopology = true) ∧
    getRigidBodyVelocity sampleSqrt sampleAcos (sampleObject 10 10 10 1) 1 =
      some { centroid := (sampleObject 10 10 10 1)._meshCurrent.getCentroid, linear := 0,
             axis := ⟨1, 0, 0⟩, angular := 0 } :=
  ⟨Or.inl rfl, (getRigidBodyVelocity_static sampleSqrt sampleAcos (sampleObject 10 10 10 1) 1
    (Or.inl rfl)).1⟩

/-! ## Loops that update a vector in place -/

/-- Writing back the entry that is already there changes nothing. -/
theorem set_getD_self {α : Type} (l : List α) (i : Nat) (d : α) :
    l.set i (l.getD i d) = l := by
  apply List.ext_getElem?
  intro j
  rw [List.getElem?_set]
  by_cases h : i = j
  · subst h
    by_cases hi : i < l.length
    · simp [hi, List.getD_eq_getElem?_getD, List.getElem?_eq_getElem hi]
    · simp [hi]
      omega
  · simp [h]

/-- The loop `for i < n: l[i] = g(l[i])` keeps the length of the vector. -/
theorem foldl_modify_length {α : Type} (g : α → α) (d : α) (n : Nat) (l : List α) :
    ((List.range n).foldl (fun l i => l.set i (g (l.getD i d))) l).length = l.length := by
  induction n with
  | zero => simp
  | succ n ih =>
    rw [List.range_succ, List.foldl_append]
    simp only [List.foldl_cons, List.foldl_nil, List.length_set, ih]

/-- The loop `for i < n: l[i] = g(l[i])`, entry by entry: the entries below `n`
are the images under `g` of the original entries. -/
theorem foldl_modify_getElem? {α : Type} (g : α → α) (d : α) (n : Nat) (l : List α) (j : Nat) :
    ((List.range n).foldl (fun l i => l.set i (g (l.getD i d))) l)[j]? =
      if j < n then (l[j]?).map g else l[j]? := by
  induction n with
  | zero => simp
  | succ n ih =>
    rw [List.range_succ, List.foldl_append]
    simp only [List.foldl_cons, List.foldl_nil, List.getElem?_set, foldl_modify_length]
    by_cases h1 : n = j
    · subst h1
      rw [if_pos rfl, if_pos (Nat.lt_succ_self n), List.getD_eq_getElem?_getD, ih,
        if_neg (Nat.lt_irrefl n)]
      by_cases hn : n < l.length
      · simp [hn, List.getElem?_eq_getElem hn]
      · rw [if_neg hn, List.getElem?_eq_none (by omega)]
        rfl
    · rw [if_neg h1, ih]
      by_cases h2 : j < n
      · rw [if_pos h2, if_pos (by omega)]
      · rw [if_neg h2, if_neg (by omega)]

/-- The loop `for i < l.size(): l[i] = g(l[i])` maps `g` over the vector. -/
theorem foldl_modify_eq_map {α : Type} (g : α → α) (d : α) (l : List α) :
    (List.range l.length).foldl (fun l i => l.set i (g (l.getD i d))) l = l.map g := by
  apply List.ext_getElem?
  intro j
  rw [foldl_modify_getElem?, List.getElem?_map]
  by_cases hj : j < l.length
  · rw [if_pos hj]
  · rw [if_neg hj, List.getElem?_eq_none (by omega)]
    rfl

/-- A loop over the vertices of a mesh only touches the vertex list. -/
theorem foldl_mesh_vertices_step (G : List Vec3 → Nat → List Vec3) (xs : List Nat)
    (init : TriangleMesh) :
    xs.foldl (fun (m : TriangleMesh) i => { m with vertices := G m.vertices i }) init =
      { init with vertices := xs.foldl G init.vertices } := by
  induction xs generalizing init with
  | nil => rfl
  | cons x xs ih => simp only [List.foldl_cons]; rw [ih]

/-- The summing loop `for i < l.size(): vsum += l[i]` adds up the vector. -/
theorem foldl_range_sum (l : List Vec3) (a : Vec3) (n : Nat) (hn : n ≤ l.length) :
    (List.range n).foldl (fun (vsum : Vec3) i => vsum + l.getD i 0) a =
      (l.take n).foldl (fun (vsum : Vec3) v => vsum + v) a := by
  induction n with
  | zero => simp
  | succ n ih =>
    have hlt : n < l.length := by omega
    rw [List.range_succ, List.foldl_append, ih (by omega), List.take_succ,
      List.getElem?_eq_getElem hlt, List.foldl_append]
    simp [List.getD_eq_getElem?_getD, List.getElem?_eq_getElem hlt]

/-- Normalising is dividing by the length. -/
theorem vmath.normalize_eq (sqrt : ℚ → ℚ) (v : Vec3) :
    vmath.normalize sqrt v = (1 / vmath.length sqrt v) • v := by
  unfold vmath.normalize
  rw [Vec3.smul_def]
  simp only [Vec3.mk.injEq]
  exact ⟨mul_comm _ _, mul_comm _ _, mul_comm _ _⟩

/-- The method `_expandMeshIsland` on a non-empty island maps every vertex to its
expanded position about the mean of the original vertices. -/
theorem _expandMeshIsland_eq_map (sqrt : ℚ → ℚ) (o : MeshObject) (m : TriangleMesh)
    (hne : m.vertices ≠ []) :
    _expandMeshIsland sqrt o m =
      { m with
        vertices := m.vertices.map (expandedVertex sqrt o (vertexMean m.vertices)) } := by
  unfold _expandMeshIsland
  have hemp : m.vertices.isEmpty = false := by
    cases hv : m.vertices with
    | nil => exact absurd hv hne
    | cons a l => rfl
  simp only [hemp, Bool.false_eq_true, if_false]
  have hsum : (List.range m.vertices.length).foldl
      (fun (vsum : Vec3) i => vsum + m.vertices.getD i 0) ⟨0, 0, 0⟩ =
      m.vertices.foldl (fun (vsum : Vec3) v => vsum + v) 0 := by
    rw [foldl_range_sum m.vertices _ _ (le_refl _), List.take_length]
    rfl
  rw [hsum]
  have hbody : ∀ (m1 : TriangleMesh) (i : Nat),
      (if |(m1.vertices.getD i 0 - vertexMean m.vertices).x| < 1 / 1000000000 ∧
          |(m1.vertices.getD i 0 - vertexMean m.vertices).y| < 1 / 1000000000 ∧
          |(m1.vertices.getD i 0 - vertexMean m.vertices).z| < 1 / 1000000000 then m1
        else
          { m1 with
            vertices := m1.vertices.set i (m1.vertices.getD i 0 +
              ((1 / 2) * o._meshExpansion) •
                vmath.normalize sqrt (m1.vertices.getD i 0 - vertexMean m.vertices)) }) =
      { m1 with
        vertices := m1.vertices.set i
          (expandedVertex sqrt o (vertexMean m.vertices) (m1.vertices.getD i 0)) } := by
    intro m1 i
    unfold expandedVertex
    split_ifs with h
    · rw [set_getD_self]
    · rw [vmath.normalize_eq]
  show (List.range m.vertices.length).foldl
    (fun (m1 : TriangleMesh) i =>
      if |(m1.vertices.getD i 0 - vertexMean m.vertices).x| < 1 / 1000000000 ∧
          |(m1.vertices.getD i 0 - vertexMean m.vertices).y| < 1 / 1000000000 ∧
          |(m1.vertices.getD i 0 - vertexMean m.vertices).z| < 1 / 1000000000 then m1
        else
          { m1 with
            vertices := m1.vertices.set i (m1.vertices.getD i 0 +
              ((1 / 2) * o._meshExpansion) •
                vmath.normalize sqrt (m1.vertices.getD i 0 - vertexMean m.vertices)) }) m = _
  simp only [hbody]
  rw [foldl_mesh_vertices_step
    (fun l i => l.set i (expandedVertex sqrt o (vertexMean m.vertices) (l.getD i 0))),
    foldl_modify_eq_map]

/-- C19: `_expandMeshIsland` leaves an empty island untouched and keeps the
triangles and the vertex count of every island; on a non-empty island with
original vertex mean `c` it leaves a vertex `v` unmoved when every coordinate of
`v - c` is within epsilon (1e-9) of zero and moves it to
`v + 0.5 * meshExpansion * (v - c) / |v - c|` otherwise. When `|meshExpansion|` is
not below the epsilon, `_expandMeshIslands` applies this to every island. -/
theorem _expandMeshIsland_expands (sqrt : ℚ → ℚ) (o : MeshObject) (m : TriangleMesh) :
    (m.vertices = [] → _expandMeshIsland sqrt o m = m) ∧
    (_expandMeshIsland sqrt o m).triangles = m.triangles ∧
    (_expandMeshIsland sqrt o m).vertices.length = m.vertices.length ∧
    (∀ (i : Nat) (v : Vec3), m.vertices[i]? = some v →
      ((|(v - vertexMean m.vertices).x| < 1 / 1000000000 ∧
          |(v - vertexMean m.vertices).y| < 1 / 1000000000 ∧
          |(v - vertexMean m.vertices).z| < 1 / 1000000000) →
        (_expandMeshIsland sqrt o m).vertices[i]? = some v) ∧
      (¬ (|(v - vertexMean m.vertices).x| < 1 / 1000000000 ∧
          |(v - vertexMean m.vertices).y| < 1 / 1000000000 ∧
          |(v - vertexMean m.vertices).z| < 1 / 1000000000) →
        (_expandMeshIsland sqrt o m).vertices[i]? =
          some (v + ((1 / 2) * o._meshExpansion) •
            ((1 / vmath.length sqrt (v - vertexMean m.vertices)) •
              (v - vertexMean m.vertices))))) ∧
    (∀ islands : List TriangleMesh, 1 / 1000000000 ≤ |o._meshExpansion| →
      _expandMeshIslands sqrt o islands = islands.map (_expandMeshIsland sqrt o)) := by
  have hempty : m.vertices = [] → _expandMeshIsland sqrt o m = m := by
    intro h
    unfold _expandMeshIsland
    simp [h]
  refine ⟨hempty, ?_, ?_, ?_, ?_⟩
  · by_cases hne : m.vertices = []
    · rw [hempty hne]
    · rw [_expandMeshIsland_eq_map sqrt o m hne]
  · by_cases hne : m.vertices = []
    · rw [hempty hne]
    · rw [_expandMeshIsland_eq_map sqrt o m hne]
      simp
  · intro i v hv
    have hne : m.vertices ≠ [] := by
      intro h
      rw [h] at hv
      simp at hv
    rw [_expandMeshIsland_eq_map sqrt o m hne]
    simp only [List.getElem?_map, hv, Option.map_some', Option.some.injEq]
    constructor
    · intro h
      unfold expandedVertex
      rw [if_pos h]
    · intro h
      unfold expandedVertex
      rw [if_neg h]
  · intro islands h
    unfold _expandMeshIslands
    rw [if_neg (not_lt.2 h)]
    exact foldl_modify_eq_map (_expandMeshIsland sqrt o) ⟨[], []⟩ islands

/-- Witness for C19: an object with `meshExpansion = 2` and two islands. -/
theorem _expandMeshIsland_expands_witness :
    (1 : ℚ) / 1000000000 ≤ |sampleExpanding._meshExpansion| ∧
    _expandMeshIslands sampleSqrt sampleExpanding [sampleTriangle ⟨1, 1, 1⟩, sampleTetrahedron] =
      [sampleTriangle ⟨1, 1, 1⟩, sampleTetrahedron].map
        (_expandMeshIsland sampleSqrt sampleExpanding) :=
  ⟨by norm_num [sampleExpanding],
    (_expandMeshIsland_expands sampleSqrt sampleExpanding sampleTetrahedron).2.2.2.2
      [sampleTriangle ⟨1, 1, 1⟩, sampleTetrahedron] (by norm_num [sampleExpanding])⟩

/-! ## Claims on the pruning of the velocity field -/

/-- Only the removed indices at or above the start index matter. -/
theorem survivingFrom_congr {α : Type} (A B : List Int) (l : List α) (k : Nat)
    (h : ∀ i : Nat, k ≤ i → ((i : Int) ∈ A ↔ (i : Int) ∈ B)) :
    survivingFrom k A l = survivingFrom k B l := by
  induction l generalizing k with
  | nil => rfl
  | cons a l ih =>
    unfold survivingFrom
    rw [ih (k + 1) (fun i hi => h i (by omega))]
    by_cases hA : (k : Int) ∈ A
    · rw [if_pos hA, if_pos ((h k (le_refl k)).1 hA)]
    · rw [if_neg hA, if_neg (fun hB => hA ((h k (le_refl k)).2 hB))]

/-- The surviving entries are a sub-sequence of the vector. -/
theorem survivingFrom_sublist {α : Type} (removed : List Int) (l : List α) (k : Nat) :
    (survivingFrom k removed l).Sublist l := by
  induction l generalizing k with
  | nil => exact List.Sublist.slnil
  | cons a l ih =>
    unfold survivingFrom
    split_ifs
    · exact (ih (k + 1)).cons a
    · exact (ih (k + 1)).cons₂ a

/-- Pruning two parallel vectors prunes the vector of pairs. -/
theorem survivingFrom_zip {α β : Type} (removed : List Int) (l1 : List α) (l2 : List β)
    (k : Nat) :
    (survivingFrom k removed l1).zip (survivingFrom k removed l2) =
      survivingFrom k removed (l1.zip l2) := by
  induction l1 generalizing l2 k with
  | nil => simp [survivingFrom]
  | cons a l1 ih =>
    cases l2 with
    | nil =>
      simp only [List.zip_nil_right]
      unfold survivingFrom
      split_ifs <;> simp [survivingFrom]
    | cons b l2 =>
      simp only [List.zip_cons_cons]
      unfold survivingFrom
      split_ifs
      · exact ih l2 (k + 1)
      · simp only [List.zip_cons_cons]
        rw [ih l2 (k + 1)]

/-- Erasing the entry at an index below all removed indices from the pruned
vector is pruning with that index removed as well; the index is inside the
pruned vector. -/
theorem survivingFrom_eraseIdx {α : Type} (rs : List Int) (l : List α) (k r : Nat)
    (hk : k ≤ r) (hr : r < k + l.length) (hlt : ∀ x ∈ rs, (r : Int) < x) :
    r - k < (survivingFrom k rs l).length ∧
    (survivingFrom k rs l).eraseIdx (r - k) = survivingFrom k ((r : Int) :: rs) l := by
  induction l generalizing k with
  | nil => simp at hr; omega
  | cons a l ih =>
    have hk_not : (k : Int) ∉ rs := by
      intro hmem
      have := hlt _ hmem
      omega
    unfold survivingFrom
    rw [if_neg hk_not]
    by_cases hkr : k = r
    · subst hkr
      have hmem : (k : Int) ∈ (k : Int) :: rs := List.mem_cons_self _ _
      rw [if_pos hmem]
      simp only [Nat.sub_self, List.length_cons, Nat.zero_lt_succ, List.eraseIdx_cons_zero,
        true_and]
      apply survivingFrom_congr
      intro i hi
      constructor
      · intro h
        exact List.mem_cons_of_mem _ h
      · intro h
        rcases List.mem_cons.1 h with h | h
        · omega
        · exact h
    · have hk_not2 : (k : Int) ∉ (r : Int) :: rs := by
        intro hmem
        rcases List.mem_cons.1 hmem with h | h
        · omega
        · exact hk_not h
      rw [if_neg hk_not2]
      have hlen : r < (k + 1) + l.length := by
        simp only [List.length_cons] at hr
        omega
      obtain ⟨h1, h2⟩ := ih (k + 1) (by omega) hlen
      have hsub : r - k = (r - (k + 1)) + 1 := by omega
      rw [hsub, List.eraseIdx_cons_succ, h2]
      exact ⟨by simp only [List.length_cons]; omega, rfl⟩

/-- The erasure loop with strictly ascending valid indices returns the pruned
vector, one entry shorter per removed index. -/
theorem eraseRemovedVertices_eq (removed : List Int) (vel : List Vec3)
    (hasc : removed.Pairwise (fun a b => a < b))
    (hvalid : ∀ x ∈ removed, 0 ≤ x ∧ x < vel.length) :
    eraseRemovedVertices removed vel = some (survivingFrom 0 removed vel) ∧
    (survivingFrom 0 removed vel).length + removed.length = vel.length := by
  unfold eraseRemovedVertices
  induction removed with
  | nil =>
    simp only [List.reverse_nil, List.foldlM_nil, List.length_nil, add_zero]
    have h : ∀ (l : List Vec3) (k : Nat), survivingFrom k [] l = l := by
      intro l
      induction l with
      | nil => intro k; rfl
      | cons a l ih => intro k; unfold survivingFrom; simp [ih]
    rw [h]
    exact ⟨rfl, rfl⟩
  | cons x rs ih =>
    obtain ⟨hx, hrs⟩ := List.pairwise_cons.1 hasc
    obtain ⟨ih1, ih2⟩ := ih hrs (fun y hy => hvalid y (List.mem_cons_of_mem _ hy))
    obtain ⟨hx0, hxn⟩ := hvalid x (List.mem_cons_self _ _)
    have hxr : ((x.toNat : Nat) : Int) = x := Int.toNat_of_nonneg hx0
    have hlt : ∀ y ∈ rs, ((x.toNat : Nat) : Int) < y := by
      intro y hy
      rw [hxr]
      exact hx y hy
    have hr : x.toNat < 0 + vel.length := by omega
    obtain ⟨h1, h2⟩ := survivingFrom_eraseIdx rs vel 0 x.toNat (Nat.zero_le _) hr hlt
    rw [hxr] at h2
    simp only [Nat.sub_zero] at h1 h2
    rw [List.reverse_cons, List.foldlM_append, ih1]
    simp only [Option.bind_eq_bind, Option.some_bind, List.foldlM_cons, List.foldlM_nil]
    have hin : 0 ≤ x ∧ x < ((survivingFrom 0 rs vel).length : Int) := by
      constructor
      · exact hx0
      · omega
    unfold vectorErase
    rw [if_pos hin, h2]
    refine ⟨rfl, ?_⟩
    rw [← h2, List.length_eraseIdx_of_lt h1, List.length_cons]
    omega

/-- C20: for every velocity field and every strictly ascending list of valid
removed-vertex indices, the reverse-order erasure of `getMeshLevelSet` returns
the velocity field without the entries at the removed indices, the remaining
entries in their original order; it has one entry per surviving vertex, and
entry `i` is the velocity of surviving vertex `i` (pruning the vertices and the
velocities by the same indices keeps the pairs together). -/
theorem eraseRemovedVertices_surviving (removed : List Int) (vel : List Vec3)
    (hasc : removed.Pairwise (fun a b => a < b))
    (hvalid : ∀ x ∈ removed, 0 ≤ x ∧ x < vel.length) :
    eraseRemovedVertices removed vel = some (survivingFrom 0 removed vel) ∧
    (survivingFrom 0 removed vel).Sublist vel ∧
    (survivingFrom 0 removed vel).length = vel.length - removed.length ∧
    ∀ vertices : List Vec3, vertices.length = vel.length →
      (survivingFrom 0 removed vertices).length = (survivingFrom 0 removed vel).length ∧
      (survivingFrom 0 removed vertices).zip (survivingFrom 0 removed vel) =
        survivingFrom 0 removed (vertices.zip vel) := by
  obtain ⟨h1, h2⟩ := eraseRemovedVertices_eq removed vel hasc hvalid
  refine ⟨h1, survivingFrom_sublist _ _ _, by omega, fun vertices hlen => ?_⟩
  have h3 := (eraseRemovedVertices_eq removed vertices hasc
    (fun x hx => by rw [hlen]; exact hvalid x hx)).2
  exact ⟨by omega, survivingFrom_zip _ _ _ _⟩

/-- Witness for C20: removing the entries 1 and 3 of a field of five velocities. -/
theorem eraseRemovedVertices_surviving_witness :
    ([1, 3] : List Int).Pairwise (fun a b => a < b) ∧
    eraseRemovedVertices [1, 3]
        [⟨0, 0, 0⟩, ⟨1, 0, 0⟩, ⟨2, 0, 0⟩, ⟨3, 0, 0⟩, ⟨4, 0, 0⟩] =
      some [⟨0, 0, 0⟩, ⟨2, 0, 0⟩, ⟨4, 0, 0⟩] :=
  ⟨by decide, (eraseRemovedVertices_surviving [1, 3]
    [⟨0, 0, 0⟩, ⟨1, 0, 0⟩, ⟨2, 0, 0⟩, ⟨3, 0, 0⟩, ⟨4, 0, 0⟩] (by decide)
    (by decide)).1⟩

/-! ## Vector algebra by components -/

/-- Two vectors with equal components are equal. -/
theorem Vec3.eq_of_components (a b : Vec3) (hx : a.x = b.x) (hy : a.y = b.y) (hz : a.z = b.z) :
    a = b := by
  cases a; cases b; simp_all

/-- The components of a sum. -/
theorem Vec3.add_components (a b : Vec3) :
    (a + b).x = a.x + b.x ∧ (a + b).y = a.y + b.y ∧ (a + b).z = a.z + b.z := ⟨rfl, rfl, rfl⟩

/-- The components of a difference. -/
theorem Vec3.sub_components (a b : Vec3) :
    (a - b).x = a.x - b.x ∧ (a - b).y = a.y - b.y ∧ (a - b).z = a.z - b.z := ⟨rfl, rfl, rfl⟩

/-- The components of a scaled vector. -/
theorem Vec3.smul_components (s : ℚ) (a : Vec3) :
    (s • a).x = s * a.x ∧ (s • a).y = s * a.y ∧ (s • a).z = s * a.z := ⟨rfl, rfl, rfl⟩

/-- A vector minus itself is the zero vector. -/
theorem Vec3.sub_self_eq (a : Vec3) : a - a = 0 := by
  apply Vec3.eq_of_components <;>
    simp [(Vec3.sub_components a a).1, (Vec3.sub_components a a).2.1,
      (Vec3.sub_components a a).2.2, Vec3.zero_def]

/-- Adding and then subtracting a translation gives the vector back. -/
theorem Vec3.add_sub_cancel_eq (a d : Vec3) : (a + d) - d = a := by
  cases a; cases d
  simp [Vec3.add_def, Vec3.sub_def]

/-- The length of the zero vector is the square root of 0. -/
theorem vmath.length_zero (sqrt : ℚ → ℚ) : vmath.length sqrt 0 = sqrt 0 := by
  simp [vmath.length, Vec3.zero_def]

/-- The summing loop started at `a + x` ends `x` above the loop started at `a`. -/
theorem foldl_add_shift (l : List Vec3) (a x : Vec3) :
    l.foldl (fun (vsum : Vec3) v => vsum + v) (a + x) =
      l.foldl (fun (vsum : Vec3) v => vsum + v) a + x := by
  induction l generalizing a with
  | nil => rfl
  | cons w l ih =>
    simp only [List.foldl_cons]
    have h : a + x + w = a + w + x := by
      cases a; cases x; cases w
      simp only [Vec3.add_def, Vec3.mk.injEq]
      exact ⟨by ring, by ring, by ring⟩
    rw [h, ih]

/-- The sum of the translated vertices is the sum plus the count times the
translation. -/
theorem foldl_add_translate (l : List Vec3) (a d : Vec3) :
    (l.map (fun v => v + d)).foldl (fun (vsum : Vec3) v => vsum + v) a =
      l.foldl (fun (vsum : Vec3) v => vsum + v) a + (l.length : ℚ) • d := by
  induction l generalizing a with
  | nil =>
    cases a; cases d
    simp [Vec3.add_def, Vec3.smul_def]
  | cons w l ih =>
    simp only [List.map_cons, List.foldl_cons, List.length_cons]
    have h : a + (w + d) = a + w + d := by
      cases a; cases w; cases d
      simp only [Vec3.add_def, Vec3.mk.injEq]
      exact ⟨by ring, by ring, by ring⟩
    rw [ih, h, foldl_add_shift]
    generalize l.foldl (fun (vsum : Vec3) v => vsum + v) (a + w) = s
    cases s; cases d
    simp only [Vec3.add_def, Vec3.smul_def, Vec3.mk.injEq]
    push_cast
    exact ⟨by ring, by ring, by ring⟩

/-- Translating every vertex of a non-empty mesh by `d` translates the centroid
by `d`. -/
theorem getCentroid_translate (m1 m2 : TriangleMesh) (d : Vec3) (hne : m1.vertices ≠ [])
    (h : m2.vertices = m1.vertices.map (fun v => v + d)) :
    m2.getCentroid - m1.getCentroid = d := by
  have hlen : m2.vertices.length = m1.vertices.length := by rw [h, List.length_map]
  have hpos : (m1.vertices.length : ℚ) ≠ 0 := by
    have : m1.vertices.length ≠ 0 := fun h0 => hne (List.length_eq_zero.1 h0)
    exact_mod_cast this
  have he1 : m1.vertices.isEmpty = false := by
    cases hv : m1.vertices with
    | nil => exact absurd hv hne
    | cons a l => rfl
  have he2 : m2.vertices.isEmpty = false := by
    rw [h]
    cases hv : m1.vertices with
    | nil => exact absurd hv hne
    | cons a l => rfl
  unfold TriangleMesh.getCentroid
  simp only [he1, he2, Bool.false_eq_true, if_false]
  rw [hlen, h, foldl_add_translate]
  generalize m1.vertices.foldl (fun (vsum : Vec3) v => vsum + v) 0 = s
  cases s; cases d
  simp only [Vec3.add_def, Vec3.sub_def, Vec3.smul_def, Vec3.mk.injEq]
  refine ⟨?_, ?_, ?_⟩ <;> field_simp

/-! ## The reference point loop of `getRigidBodyVelocity` -/

/-- The loop that looks for the reference point: it returns, and either the flag
is set and `(vert1, vert2)` is the vertex pair at the first index that passes the
test, or the flag is clear and no index passes the test. -/
theorem referencePoint_loop (sqrt : ℚ → ℚ) (c : Vec3) (eps : ℚ) (vs1 vs2 : List Vec3) (n : Nat)
    (hn1 : n ≤ vs1.length) (hn2 : n ≤ vs2.length) :
    ∃ st : Vec3 × Vec3 × Bool,
      (List.range n).foldlM
        (fun (st : Vec3 × Vec3 × Bool) i =>
          if st.2.2 then
            pure st
          else do
            let vert1 ← vs1[i]?
            let vert2 ← vs2[i]?
            if vmath.length sqrt (vert1 - c) > eps ∧ vmath.length sqrt (vert2 - c) ≠ 0 then
              pure (vert1, vert2, true)
            else
              pure (vert1, vert2, false))
        ((0 : Vec3), (0 : Vec3), false) = some st ∧
      ((st.2.2 = true ∧ ∃ i, i < n ∧ vs1[i]? = some st.1 ∧ vs2[i]? = some st.2.1 ∧
          (vmath.length sqrt (st.1 - c) > eps ∧ vmath.length sqrt (st.2.1 - c) ≠ 0) ∧
          ∀ j, j < i → ∀ a b, vs1[j]? = some a → vs2[j]? = some b →
            ¬ (vmath.length sqrt (a - c) > eps ∧ vmath.length sqrt (b - c) ≠ 0)) ∨
       (st.2.2 = false ∧
          ∀ j, j < n → ∀ a b, vs1[j]? = some a → vs2[j]? = some b →
            ¬ (vmath.length sqrt (a - c) > eps ∧ vmath.length sqrt (b - c) ≠ 0))) := by
  induction n with
  | zero =>
    refine ⟨(0, 0, false), rfl, Or.inr ⟨rfl, ?_⟩⟩
    intro j hj
    omega
  | succ n ih =>
    obtain ⟨st, hst, hcase⟩ := ih (by omega) (by omega)
    have h1 : n < vs1.length := by omega
    have h2 : n < vs2.length := by omega
    rw [List.range_succ, List.foldlM_append, hst]
    simp only [Option.bind_eq_bind, Option.some_bind, List.foldlM_cons, List.foldlM_nil]
    rcases hcase with ⟨hf, i, hi, hv1, hv2, hc, hmin⟩ | ⟨hf, hnone⟩
    · refine ⟨st, ?_, Or.inl ⟨hf, i, by omega, hv1, hv2, hc, hmin⟩⟩
      simp [hf]
    · by_cases hc : vmath.length sqrt (vs1[n] - c) > eps ∧ vmath.length sqrt (vs2[n] - c) ≠ 0
      · refine ⟨(vs1[n], vs2[n], true), ?_, Or.inl ⟨rfl, n, by omega, ?_, ?_, hc, ?_⟩⟩
        · simp only [hf, Bool.false_eq_true, if_false, List.getElem?_eq_getElem h1,
            List.getElem?_eq_getElem h2, Option.some_bind, if_pos hc, Option.pure_def,
            Option.bind_some]
        · exact List.getElem?_eq_getElem h1
        · exact List.getElem?_eq_getElem h2
        · exact hnone
      · refine ⟨(vs1[n], vs2[n], false), ?_, Or.inr ⟨rfl, ?_⟩⟩
        · simp only [hf, Bool.false_eq_true, if_false, List.getElem?_eq_getElem h1,
            List.getElem?_eq_getElem h2, Option.some_bind, if_neg hc, Option.pure_def,
            Option.bind_some]
        · intro j hj a b ha hb
          by_cases hjn : j = n
          · subst hjn
            rw [List.getElem?_eq_getElem h1] at ha
            rw [List.getElem?_eq_getElem h2] at hb
            cases ha; cases hb
            exact hc
          · exact hnone j (by omega) a b ha hb

/-- When the loop has not found a reference point, or the reference point does
not move relative to the centroid translation, the estimate has the default axis
and zero angular speed. -/
theorem getRigidBodyVelocity_no_rotation (sqrt acos : ℚ → ℚ) (o : MeshObject) (dt : ℚ)
    (hA : o._isAnimated = true) (hT : o._isChangingTopology = false)
    (st : Vec3 × Vec3 × Bool)
    (hst : (List.range o._meshCurrent.vertices.length).foldlM
        (fun (st : Vec3 × Vec3 × Bool) i =>
          if st.2.2 then
            pure st
          else do
            let vert1 ← o._meshCurrent.vertices[i]?
            let vert2 ← o._meshNext.vertices[i]?
            if vmath.length sqrt (vert1 - o._meshCurrent.getCentroid) > 1 / 100000 ∧
                vmath.length sqrt (vert2 - o._meshCurrent.getCentroid) ≠ 0 then
              pure (vert1, vert2, true)
            else
              pure (vert1, vert2, false))
        ((0 : Vec3), (0 : Vec3), false) = some st)
    (hcond : st.2.2 = false ∨
      vmath.length sqrt (st.1 - (st.2.1 -
        (o._meshNext.getCentroid - o._meshCurrent.getCentroid))) < 1 / 100000) :
    getRigidBodyVelocity sqrt acos o dt =
      some { centroid := o._meshCurrent.getCentroid,
             linear := o._objectVelocityInfluence •
               ((1 / max dt (1 / 1000000)) •
                 (o._meshNext.getCentroid - o._meshCurrent.getCentroid)),
             axis := ⟨1, 0, 0⟩, angular := 0 } := by
  unfold getRigidBodyVelocity
  simp only [hA, hT, Bool.not_true, Bool.or_self, Bool.false_eq_true, if_false]
  dsimp only [RigidBodyVelocity.new] at hst ⊢
  rw [hst]
  simp only [Option.bind_eq_bind, Option.some_bind]
  have hc : (!st.2.2 || decide (vmath.length sqrt (st.1 - (st.2.1 -
      (o._meshNext.getCentroid - o._meshCurrent.getCentroid))) < 1 / 100000)) = true := by
    rcases hcond with h | h
    · rw [h]
      rfl
    · rw [decide_eq_true h, Bool.or_true]
  rw [if_pos hc]
  rfl

/-- C12: for an animated object with unchanged topology and a non-empty mesh whose
next keyframe is the current keyframe translated by one vector `d`,
`getRigidBodyVelocity(dt)` with `dt >= 1e-6` returns the centroid of the current
mesh, linear velocity `d / dt` times the object-velocity influence, the default
axis `(1, 0, 0)` and angular speed 0. The square root is only assumed to be 0
at 0. -/
theorem getRigidBodyVelocity_translation (sqrt acos : ℚ → ℚ) (o : MeshObject) (dt : ℚ)
    (d : Vec3) (hsqrt : sqrt 0 = 0)
    (hA : o._isAnimated = true) (hT : o._isChangingTopology = false)
    (hne : o._meshCurrent.vertices ≠ [])
    (hnext : o._meshNext.vertices = o._meshCurrent.vertices.map (fun v => v + d))
    (hdt : 1 / 1000000 ≤ dt) :
    getRigidBodyVelocity sqrt acos o dt =
      some { centroid := o._meshCurrent.getCentroid,
             linear := o._objectVelocityInfluence • ((1 / dt) • d),
             axis := ⟨1, 0, 0⟩, angular := 0 } := by
  have hlen : o._meshNext.vertices.length = o._meshCurrent.vertices.length := by
    rw [hnext, List.length_map]
  have hd : o._meshNext.getCentroid - o._meshCurrent.getCentroid = d :=
    getCentroid_translate _ _ d hne hnext
  obtain ⟨st, hst, hcase⟩ := referencePoint_loop sqrt o._meshCurrent.getCentroid (1 / 100000)
    o._meshCurrent.vertices o._meshNext.vertices o._meshCurrent.vertices.length (le_refl _)
    (by omega)
  have hcond : st.2.2 = false ∨
      vmath.length sqrt (st.1 - (st.2.1 -
        (o._meshNext.getCentroid - o._meshCurrent.getCentroid))) < 1 / 100000 := by
    rcases hcase with ⟨_, i, _, hv1, hv2, _, _⟩ | ⟨hf, _⟩
    · right
      rw [hnext, List.getElem?_map, hv1] at hv2
      simp only [Option.map_some', Option.some.injEq] at hv2
      rw [hd, ← hv2, Vec3.add_sub_cancel_eq, Vec3.sub_self_eq, vmath.length_zero, hsqrt]
      norm_num
    · exact Or.inl hf
  rw [getRigidBodyVelocity_no_rotation sqrt acos o dt hA hT st hst hcond, hd, max_eq_left hdt]

/-- Witness for C12: a triangle moved by `(1, 0, 0)` in a frame of duration 1. -/
theorem getRigidBodyVelocity_translation_witness :
    sampleSqrt 0 = 0 ∧ sampleTranslating._isAnimated = true ∧
    sampleTranslating._isChangingTopology = false ∧ (1 : ℚ) / 1000000 ≤ 1 ∧
    getRigidBodyVelocity sampleSqrt sampleAcos sampleTranslating 1 =
      some { centroid := sampleTranslating._meshCurrent.getCentroid,
             linear := sampleTranslating._objectVelocityInfluence •
               (((1 : ℚ) / 1) • (⟨1, 0, 0⟩ : Vec3)),
             axis := ⟨1, 0, 0⟩, angular := 0 } :=
  ⟨rfl, rfl, rfl, by norm_num,
    getRigidBodyVelocity_translation sampleSqrt sampleAcos sampleTranslating 1 ⟨1, 0, 0⟩ rfl
      rfl rfl
      (by
        rw [show sampleTranslating._meshCurrent = sampleTriangle ⟨1, 0, 0⟩ from
          (updateMeshAnimated_meshes _ _ _ _).2.1]
        exact List.cons_ne_nil _ _)
      (by
        rw [show sampleTranslating._meshCurrent = sampleTriangle ⟨1, 0, 0⟩ from
          (updateMeshAnimated_meshes _ _ _ _).2.1]
        exact congrArg TriangleMesh.vertices (updateMeshAnimated_meshes _ _ _ _).2.2.1)
      (by norm_num)⟩

/-- C13: for an animated object with unchanged topology whose current keyframe is
collapsed to a single point (every current vertex is the current centroid),
`getRigidBodyVelocity(dt)` returns the default axis `(1, 0, 0)` and angular speed 0
for every `dt` and every next keyframe with the same vertex count. The only
divisor, the frame time floored at 1e-6, is positive, and the result holds for
every arc cosine and every square root that is 0 at 0: no vector is
normalised. -/
theorem getRigidBodyVelocity_collapsed (sqrt acos : ℚ → ℚ) (o : MeshObject) (dt : ℚ)
    (hsqrt : sqrt 0 = 0)
    (hA : o._isAnimated = true) (hT : o._isChangingTopology = false)
    (hlen : o._meshNext.vertices.length = o._meshCurrent.vertices.length)
    (hpoint : ∀ v ∈ o._meshCurrent.vertices, v = o._meshCurrent.getCentroid) :
    getRigidBodyVelocity sqrt acos o dt =
      some { centroid := o._meshCurrent.getCentroid,
             linear := o._objectVelocityInfluence •
               ((1 / max dt (1 / 1000000)) •
                 (o._meshNext.getCentroid - o._meshCurrent.getCentroid)),
             axis := ⟨1, 0, 0⟩, angular := 0 } ∧
    0 < max dt (1 / 1000000) := by
  obtain ⟨st, hst, hcase⟩ := referencePoint_loop sqrt o._meshCurrent.getCentroid (1 / 100000)
    o._meshCurrent.vertices o._meshNext.vertices o._meshCurrent.vertices.length (le_refl _)
    (by omega)
  have hcond : st.2.2 = false ∨
      vmath.length sqrt (st.1 - (st.2.1 -
        (o._meshNext.getCentroid - o._meshCurrent.getCentroid))) < 1 / 100000 := by
    rcases hcase with ⟨_, i, _, hv1, _, hc, _⟩ | ⟨hf, _⟩
    · exfalso
      have hmem : st.1 ∈ o._meshCurrent.vertices := List.getElem?_mem hv1
      rw [hpoint _ hmem, Vec3.sub_self_eq, vmath.length_zero, hsqrt] at hc
      norm_num at hc
    · exact Or.inl hf
  refine ⟨getRigidBodyVelocity_no_rotation sqrt acos o dt hA hT st hst hcond, ?_⟩
  exact lt_of_lt_of_le (by norm_num) (le_max_right _ _)

/-- Witness for C13: three vertices at `(1, 1, 1)`. -/
theorem getRigidBodyVelocity_collapsed_witness :
    sampleSqrt 0 = 0 ∧ sampleCollapsed._isAnimated = true ∧
    sampleCollapsed._isChangingTopology = false ∧
    (getRigidBodyVelocity sampleSqrt sampleAcos sampleCollapsed 0 =
      some { centroid := sampleCollapsed._meshCurrent.getCentroid,
             linear := sampleCollapsed._objectVelocityInfluence •
               (((1 : ℚ) / max 0 (1 / 1000000)) •
                 (sampleCollapsed._meshNext.getCentroid -
                   sampleCollapsed._meshCurrent.getCentroid)),
             axis := ⟨1, 0, 0⟩, angular := 0 } ∧
      (0 : ℚ) < max 0 (1 / 1000000)) :=
  ⟨rfl, rfl, rfl,
    getRigidBodyVelocity_collapsed sampleSqrt sampleAcos sampleCollapsed 0 rfl rfl rfl rfl
      (by
        have hcur : sampleCollapsed._meshCurrent = collapsedTriangle :=
          (updateMeshAnimated_meshes _ _ _ _).2.1
        have hc : collapsedTriangle.getCentroid = ⟨1, 1, 1⟩ := by
          norm_num [collapsedTriangle, TriangleMesh.getCentroid, Vec3.add_def, Vec3.smul_def,
            show (0 : Vec3).x = 0 from rfl, show (0 : Vec3).y = 0 from rfl,
            show (0 : Vec3).z = 0 from rfl]
        rw [hcur, hc]
        intro v hv
        simpa [collapsedTriangle] using hv)⟩


/-! ## The rotation branch of `getRigidBodyVelocity` -/

/-- When the loop has found a reference point that moves relative to the centroid
translation, and neither centroid-relative vector nor their cross product is
shorter than the epsilon, the estimate has the normalised cross product as axis
and the arc cosine of the scalar product of the normalised vectors, divided by
the frame time and scaled, as angular speed. -/
theorem getRigidBodyVelocity_rotation (sqrt acos : ℚ → ℚ) (o : MeshObject) (dt : ℚ)
    (hA : o._isAnimated = true) (hT : o._isChangingTopology = false)
    (st : Vec3 × Vec3 × Bool)
    (hst : (List.range o._meshCurrent.vertices.length).foldlM
        (fun (st : Vec3 × Vec3 × Bool) i =>
          if st.2.2 then
            pure st
          else do
            let vert1 ← o._meshCurrent.vertices[i]?
            let vert2 ← o._meshNext.vertices[i]?
            if vmath.length sqrt (vert1 - o._meshCurrent.getCentroid) > 1 / 100000 ∧
                vmath.length sqrt (vert2 - o._meshCurrent.getCentroid) ≠ 0 then
              pure (vert1, vert2, true)
            else
              pure (vert1, vert2, false))
        ((0 : Vec3), (0 : Vec3), false) = some st)
    (hfound : st.2.2 = true)
    (hmoved : ¬ vmath.length sqrt (st.1 - (st.2.1 -
      (o._meshNext.getCentroid - o._meshCurrent.getCentroid))) < 1 / 100000)
    (hlong : ¬ (vmath.length sqrt (st.1 - o._meshCurrent.getCentroid) < 1 / 100000 ∨
      vmath.length sqrt ((st.2.1 - (o._meshNext.getCentroid - o._meshCurrent.getCentroid)) -
        o._meshCurrent.getCentroid) < 1 / 100000))
    (hcross : ¬ vmath.length sqrt (vmath.cross (st.1 - o._meshCurrent.getCentroid)
      ((st.2.1 - (o._meshNext.getCentroid - o._meshCurrent.getCentroid)) -
        o._meshCurrent.getCentroid)) < 1 / 100000) :
    getRigidBodyVelocity sqrt acos o dt =
      some { centroid := o._meshCurrent.getCentroid,
             linear := o._objectVelocityInfluence •
               ((1 / max dt (1 / 1000000)) •
                 (o._meshNext.getCentroid - o._meshCurrent.getCentroid)),
             axis := vmath.normalize sqrt
               (vmath.cross (st.1 - o._meshCurrent.getCentroid)
                 ((st.2.1 - (o._meshNext.getCentroid - o._meshCurrent.getCentroid)) -
                   o._meshCurrent.getCentroid)),
             angular :=
               acos (vmath.dot (vmath.normalize sqrt (st.1 - o._meshCurrent.getCentroid))
                 (vmath.normalize sqrt
                   ((st.2.1 - (o._meshNext.getCentroid - o._meshCurrent.getCentroid)) -
                     o._meshCurrent.getCentroid))) / max dt (1 / 1000000) *
                o._objectVelocityInfluence } := by
  unfold getRigidBodyVelocity
  simp only [hA, hT, Bool.not_true, Bool.or_self, Bool.false_eq_true, if_false]
  dsimp only [RigidBodyVelocity.new] at hst ⊢
  rw [hst]
  simp only [Option.bind_eq_bind, Option.some_bind]
  have hc : ¬ (!st.2.2 || decide (vmath.length sqrt (st.1 - (st.2.1 -
      (o._meshNext.getCentroid - o._meshCurrent.getCentroid))) < 1 / 100000)) = true := by
    rw [hfound, decide_eq_false hmoved]
    decide
  rw [if_neg hc, if_neg hlong, if_neg hcross]
  simp only [isinf, isnan, Bool.or_self, Bool.false_eq_true, if_false]
  rfl

/-- The centroid of `rotationCurrent` is the origin. -/
theorem rotationCurrent_getCentroid : rotationCurrent.getCentroid = ⟨0, 0, 0⟩ := by
  norm_num [rotationCurrent, TriangleMesh.getCentroid, Vec3.add_def, Vec3.smul_def,
    show (0 : Vec3).x = 0 from rfl, show (0 : Vec3).y = 0 from rfl,
    show (0 : Vec3).z = 0 from rfl]

/-- The centroid of `rotationNext`. -/
theorem rotationNext_getCentroid :
    rotationNext.getCentroid = ⟨1 / 200000 - 5, -12, 0⟩ := by
  norm_num [rotationNext, TriangleMesh.getCentroid, Vec3.add_def, Vec3.smul_def,
    show (0 : Vec3).x = 0 from rfl, show (0 : Vec3).y = 0 from rfl,
    show (0 : Vec3).z = 0 from rfl]

/-- The estimate for `sampleRotating` with frame time 1, for every square root
that is exact at the five squares that occur and every arc cosine: the loop
takes vertex 0 as reference point and the rotation branch is reached. -/
theorem getRigidBodyVelocity_sampleRotating (sqrt acos : ℚ → ℚ)
    (h14 : sqrt 196 = 14) (h15 : sqrt 225 = 15) (h13 : sqrt 169 = 13)
    (h168 : sqrt 28224 = 168) (hsmall : sqrt (1 / 40000000000) = 1 / 200000) :
    getRigidBodyVelocity sqrt acos sampleRotating 1 =
      some { centroid := ⟨0, 0, 0⟩, linear := ⟨1 / 200000 - 5, -12, 0⟩, axis := ⟨0, 0, 1⟩,
             angular := acos (5 / 13) } := by
  have hcur : sampleRotating._meshCurrent = rotationCurrent :=
    (updateMeshAnimated_meshes _ _ _ _).2.1
  have hnext : sampleRotating._meshNext = rotationNext :=
    (updateMeshAnimated_meshes _ _ _ _).2.2.1
  have hst : (List.range sampleRotating._meshCurrent.vertices.length).foldlM
        (fun (st : Vec3 × Vec3 × Bool) i =>
          if st.2.2 then
            pure st
          else do
            let vert1 ← sampleRotating._meshCurrent.vertices[i]?
            let vert2 ← sampleRotating._meshNext.vertices[i]?
            if vmath.length sqrt (vert1 - sampleRotating._meshCurrent.getCentroid) > 1 / 100000 ∧
                vmath.length sqrt (vert2 - sampleRotating._meshCurrent.getCentroid) ≠ 0 then
              pure (vert1, vert2, true)
            else
              pure (vert1, vert2, false))
        ((0 : Vec3), (0 : Vec3), false) = some (⟨14, 0, 0⟩, ⟨1 / 200000, 0, 0⟩, true) := by
    rw [hcur, hnext, rotationCurrent_getCentroid]
    norm_num [rotationCurrent, rotationNext, List.range_succ, vmath.length, Vec3.sub_def,
      h14, hsmall]
  have hinf : sampleRotating._objectVelocityInfluence = 1 := rfl
  rw [getRigidBodyVelocity_rotation sqrt acos sampleRotating 1 rfl rfl _ hst rfl]
  · rw [hcur, hnext, rotationCurrent_getCentroid, rotationNext_getCentroid, hinf]
    norm_num [vmath.length, vmath.normalize, vmath.cross, vmath.dot, Vec3.sub_def,
      Vec3.smul_def, h14, h13, h168]
  · rw [hcur, hnext, rotationCurrent_getCentroid, rotationNext_getCentroid]
    norm_num [vmath.length, Vec3.sub_def, h15]
  · rw [hcur, hnext, rotationCurrent_getCentroid, rotationNext_getCentroid]
    norm_num [vmath.length, Vec3.sub_def, h14, h13]
  · rw [hcur, hnext, rotationCurrent_getCentroid, rotationNext_getCentroid]
    norm_num [vmath.length, vmath.cross, Vec3.sub_def, h168]

/-- The values of `squareRoot` used in the reference point example. -/
theorem squareRoot_values :
    squareRoot 0 = 0 ∧ squareRoot 196 = 14 ∧ squareRoot 225 = 15 ∧ squareRoot 169 = 13 ∧
    squareRoot 28224 = 168 ∧ squareRoot (1 / 40000000000) = 1 / 200000 := by
  have h14 : Nat.sqrt 196 = 14 := by rw [show (196 : ℕ) = 14 * 14 from rfl, Nat.sqrt_eq]
  have h15 : Nat.sqrt 225 = 15 := by rw [show (225 : ℕ) = 15 * 15 from rfl, Nat.sqrt_eq]
  have h13 : Nat.sqrt 169 = 13 := by rw [show (169 : ℕ) = 13 * 13 from rfl, Nat.sqrt_eq]
  have h168 : Nat.sqrt 28224 = 168 := by
    rw [show (28224 : ℕ) = 168 * 168 from rfl, Nat.sqrt_eq]
  refine ⟨?_, ?_, ?_, ?_, ?_, ?_⟩
  · simp [squareRoot]
  · simp [squareRoot, h14]
  · simp [squareRoot, h15]
  · simp [squareRoot, h13]
  · simp [squareRoot, h168]
  · unfold squareRoot
    norm_num

/-- C21 (the code at a failing input): in `sampleRotating`, an animated object
with unchanged topology, no vertex index is farther than the epsilon 1e-5 from
the current centroid in both keyframes (vertex 0 is at distance 14 in the
current keyframe and at distance 1/200000, half the epsilon, in the next one).
`getRigidBodyVelocity` nevertheless takes vertex 0 as reference point, because
its test on the next keyframe is `length(vert2 - centroid)` different from zero:
the result has axis `(0, 0, 1)` and a nonzero angular speed, not axis `(1, 0, 0)`
and angular speed 0. -/
theorem getRigidBodyVelocity_reference_point_slip :
    sampleRotating._isAnimated = true ∧ sampleRotating._isChangingTopology = false ∧
    (¬ ∃ (i : ℕ) (vert1 vert2 : Vec3), sampleRotating._meshCurrent.vertices[i]? = some vert1 ∧
        sampleRotating._meshNext.vertices[i]? = some vert2 ∧
        vmath.length squareRoot (vert1 - sampleRotating._meshCurrent.getCentroid) > 1 / 100000 ∧
        vmath.length squareRoot (vert2 - sampleRotating._meshCurrent.getCentroid) > 1 / 100000) ∧
    ∃ rv, getRigidBodyVelocity squareRoot sampleArcCosine sampleRotating 1 = some rv ∧
      rv.axis = ⟨0, 0, 1⟩ ∧ rv.angular = 314 / 325 ∧ rv.axis ≠ ⟨1, 0, 0⟩ ∧ rv.angular ≠ 0 := by
  obtain ⟨h0, h14, h15, h13, h168, hsmall⟩ := squareRoot_values
  have hcur : sampleRotating._meshCurrent = rotationCurrent :=
    (updateMeshAnimated_meshes _ _ _ _).2.1
  have hnext : sampleRotating._meshNext = rotationNext :=
    (updateMeshAnimated_meshes _ _ _ _).2.2.1
  refine ⟨rfl, rfl, ?_, _, getRigidBodyVelocity_sampleRotating squareRoot sampleArcCosine
    h14 h15 h13 h168 hsmall, rfl, ?_, ?_, ?_⟩
  · rw [hcur, hnext, rotationCurrent_getCentroid]
    rintro ⟨i, vert1, vert2, h1, h2, h3, h4⟩
    rcases i with _ | _ | _ | i
    · simp only [rotationNext, List.getElem?_cons_zero, Option.some.injEq] at h2
      subst h2
      norm_num [vmath.length, Vec3.sub_def, hsmall] at h4
    · simp only [rotationNext, List.getElem?_cons_succ, List.getElem?_cons_zero,
        Option.some.injEq] at h2
      subst h2
      norm_num [vmath.length, Vec3.sub_def, h0] at h4
    · simp only [rotationCurrent, List.getElem?_cons_succ, List.getElem?_cons_zero,
        Option.some.injEq] at h1
      subst h1
      norm_num [vmath.length, Vec3.sub_def, h0] at h3
    · simp [rotationCurrent] at h1
  · norm_num [sampleArcCosine]
  · intro h
    have hx := congrArg Vec3.x h
    norm_num at hx
  · norm_num [sampleArcCosine]

/-! ## Field lengths in the reachable states -/

/-- Every geometry update leaves the current translation field as long as the
current keyframe, and either sets the topology flag or leaves all three
keyframes and both translation fields with one length. -/
theorem applyUpdate_lengths (o : MeshObject) (c : MeshUpdate) :
    (applyUpdate o c)._vertexTranslationsCurrent.length =
        (applyUpdate o c)._meshCurrent.vertices.length ∧
      ((applyUpdate o c)._isChangingTopology = true ∨
        ((applyUpdate o c)._meshPrevious.vertices.length =
            (applyUpdate o c)._meshCurrent.vertices.length ∧
          (applyUpdate o c)._meshNext.vertices.length =
            (applyUpdate o c)._meshCurrent.vertices.length ∧
          (applyUpdate o c)._vertexTranslationsNext.length =
            (applyUpdate o c)._meshCurrent.vertices.length)) := by
  cases c with
  | static meshCurrent => simp [applyUpdate, updateMeshStatic]
  | animated prev cur next =>
    obtain ⟨hp, hc, hn, -⟩ := updateMeshAnimated_meshes o prev cur next
    simp only [applyUpdate]
    rw [hp, hc, hn, updateMeshAnimated_translationsCurrent, updateMeshAnimated_translationsNext]
    refine ⟨?_, ?_⟩
    · split_ifs <;> simp [foldl_set_length]
    · by_cases h1 : prev.vertices.length = cur.vertices.length
      · by_cases h2 : next.vertices.length = cur.vertices.length
        · right
          refine ⟨h1, h2, ?_⟩
          rw [if_pos h2, foldl_set_length, List.length_replicate, h2]
        · exact Or.inl ((updateMeshAnimated_isChangingTopology o prev cur next).2 (Or.inr h2))
      · exact Or.inl ((updateMeshAnimated_isChangingTopology o prev cur next).2 (Or.inl h1))

/-- The length invariant holds in every state reached from a freshly constructed
object by a sequence of geometry updates. -/
theorem applyUpdates_lengths (memberDefaults : MeshObject) (i j k : Int) (dx : ℚ)
    (calls : List MeshUpdate) :
    (applyUpdates (MeshObject.new memberDefaults i j k dx) calls)._vertexTranslationsCurrent.length =
        (applyUpdates (MeshObject.new memberDefaults i j k dx) calls)._meshCurrent.vertices.length ∧
      ((applyUpdates (MeshObject.new memberDefaults i j k dx) calls)._isChangingTopology = true ∨
        ((applyUpdates (MeshObject.new memberDefaults i j k dx) calls)._meshPrevious.vertices.length =
            (applyUpdates (MeshObject.new memberDefaults i j k dx) calls)._meshCurrent.vertices.length ∧
          (applyUpdates (MeshObject.new memberDefaults i j k dx) calls)._meshNext.vertices.length =
            (applyUpdates (MeshObject.new memberDefaults i j k dx) calls)._meshCurrent.vertices.length ∧
          (applyUpdates (MeshObject.new memberDefaults i j k dx) calls)._vertexTranslationsNext.length =
            (applyUpdates (MeshObject.new memberDefaults i j k dx) calls)._meshCurrent.vertices.length)) := by
  rcases List.eq_nil_or_concat calls with h | ⟨front, c, h⟩
  · subst h
    exact ⟨rfl, Or.inr ⟨rfl, rfl, rfl⟩⟩
  · subst h
    unfold applyUpdates
    rw [List.concat_eq_append, List.foldl_append]
    exact applyUpdate_lengths _ c

/-- The three interpolation queries on a state that satisfies the length
invariant: all three return, and the translation and velocity fields are as long
as the vertex list of the returned mesh. -/
theorem queries_parallel (o : MeshObject) (t dt : ℚ)
    (hc : o._vertexTranslationsCurrent.length = o._meshCurrent.vertices.length)
    (hT : o._isChangingTopology = true ∨
      (o._meshPrevious.vertices.length = o._meshCurrent.vertices.length ∧
        o._meshNext.vertices.length = o._meshCurrent.vertices.length ∧
        o._vertexTranslationsNext.length = o._meshCurrent.vertices.length)) :
    ∃ m tr vel, getMesh o t = some m ∧ getVertexTranslations o t = some tr ∧
      getVertexVelocities o dt t = some vel ∧
      tr.length = m.vertices.length ∧ vel.length = m.vertices.length := by
  have hmt : ∃ m tr, getMesh o t = some m ∧ getVertexTranslations o t = some tr ∧
      tr.length = m.vertices.length := by
    cases hflag : o._isChangingTopology with
    | true =>
      refine ⟨o._meshCurrent, o._vertexTranslationsCurrent, ?_, ?_, hc⟩
      · simp [getMesh, hflag]
      · simp [getVertexTranslations, hflag]
    | false =>
      rcases hT with hT | ⟨-, hn, htn⟩
      · rw [hflag] at hT
        exact absurd hT (by decide)
      · refine ⟨_, _, getMesh_eq o t hflag (le_of_eq hn.symm),
          getVertexTranslations_eq o t hflag (le_of_eq (hc.trans htn.symm)), ?_⟩
        rw [foldl_set_length, List.length_replicate]
        dsimp only
        rw [foldl_set_length, hc]
  obtain ⟨m, tr, hm, htr, hlen⟩ := hmt
  by_cases hdt : dt < 1 / 10000000000
  · refine ⟨m, tr, List.replicate tr.length 0, hm, htr, ?_, hlen, ?_⟩
    · unfold getVertexVelocities
      rw [htr]
      simp only [Option.bind_eq_bind, Option.some_bind, if_pos hdt]
      rfl
    · rw [List.length_replicate, hlen]
  · refine ⟨m, tr, (List.range tr.length).foldl
      (fun l i => l.set i ((fun v => (1 / dt) • v) (l.getD i 0))) tr, hm, htr, ?_, hlen, ?_⟩
    · unfold getVertexVelocities
      rw [htr]
      simp only [Option.bind_eq_bind, Option.some_bind, if_neg hdt]
      rfl
    · rw [foldl_modify_length, hlen]

/-- C22: in every state reached from a freshly constructed object by a sequence
of `updateMeshStatic` and `updateMeshAnimated` calls, for every frame fraction
`t` and every `dt`, the queries `getMesh`, `getVertexTranslations` and
`getVertexVelocities` all return (no read is out of range), the translations
and the velocities are as long as the vertex list of the mesh, and unless the
topology flag is set the three keyframes and both translation fields have one
length. -/
theorem applyUpdates_fields_parallel (memberDefaults : MeshObject) (i j k : Int) (dx : ℚ)
    (calls : List MeshUpdate) (t dt : ℚ) :
    (∃ m tr vel,
      getMesh (applyUpdates (MeshObject.new memberDefaults i j k dx) calls) t = some m ∧
      getVertexTranslations (applyUpdates (MeshObject.new memberDefaults i j k dx) calls) t =
        some tr ∧
      getVertexVelocities (applyUpdates (MeshObject.new memberDefaults i j k dx) calls) dt t =
        some vel ∧
      tr.length = m.vertices.length ∧ vel.length = m.vertices.length) ∧
    ((applyUpdates (MeshObject.new memberDefaults i j k dx) calls)._isChangingTopology = true ∨
      ((applyUpdates (MeshObject.new memberDefaults i j k dx) calls)._meshPrevious.vertices.length =
          (applyUpdates (MeshObject.new memberDefaults i j k dx) calls)._meshCurrent.vertices.length ∧
        (applyUpdates (MeshObject.new memberDefaults i j k dx) calls)._meshNext.vertices.length =
          (applyUpdates (MeshObject.new memberDefaults i j k dx) calls)._meshCurrent.vertices.length ∧
        (applyUpdates (MeshObject.new memberDefaults i j k dx)
            calls)._vertexTranslationsCurrent.length =
          (applyUpdates (MeshObject.new memberDefaults i j k dx) calls)._meshCurrent.vertices.length ∧
        (applyUpdates (MeshObject.new memberDefaults i j k dx) calls)._vertexTranslationsNext.length =
          (applyUpdates (MeshObject.new memberDefaults i j k dx)
            calls)._meshCurrent.vertices.length)) := by
  obtain ⟨hc, hT⟩ := applyUpdates_lengths memberDefaults i j k dx calls
  refine ⟨queries_parallel _ t dt hc hT, ?_⟩
  rcases hT with hT | ⟨hp, hn, htn⟩
  · exact Or.inl hT
  · exact Or.inr ⟨hp, hn, hc, htn⟩
end FlipFluids
